import Mathlib

/-!
Shallow embedding of the ionos-cloud-init provisioning script
(src/cloud-init.py) and verification of the specification claims.

Modelling conventions:
* Python dicts loaded from the per-server JSON files become structures
  (`Props`, `Component`, `ServerSpec`, `JsonFile`); a dictionary key that may
  be absent becomes an `Option` field (`none` = key absent).  In particular
  `imagePassword : Option (Option String)` distinguishes key absent (`none`),
  key present with null (`some none`) and key present with a value
  (`some (some s)`).
* The remote HTTP API is a static environment (`Remote`): collection listings,
  the per-href `metadata.state` field, the live attached components of a
  server, and the fields the code reads out of POST responses.
* Every remote request issued by an operation is recorded in an event trace
  (`List Event`); `time.sleep(5)` is recorded as `Event.sleepEv`.
* `exit(1)` sites become `Except Err` error results; the events issued before
  the exit are kept in the trace.
* In-place mutation of the shared `json_files` dictionary (Python aliasing)
  is embedded by explicit state passing: an operation that mutates
  `json_files` returns the updated map, one that works on a deep copy returns
  the input map unchanged.
* The inline `random.choices(string.ascii_uppercase + ... , k=32)` password
  generation is embedded as `generateImagePassword` applied to a stream of
  random outcomes (`rng : Nat → Fin 32 → Fin 62`, threaded with a counter).
-/

deriving instance DecidableEq for Except

/-- Python `p in s` substring test: does `p` match at the head of `s`? -/
def strMatchHere : List Char → List Char → Bool
  | [], _ => true
  | _ :: _, [] => false
  | c :: cs, d :: ds => c == d && strMatchHere cs ds

/-- Python `p in s` substring test: does `p` occur anywhere in `s`? -/
def strFindSub (p : List Char) : List Char → Bool
  | [] => strMatchHere p []
  | d :: ds => strMatchHere p (d :: ds) || strFindSub p ds

/-- Python membership test `p in s` on strings (substring containment),
as used by the source in the boot-volume checks. -/
def pyIn (p s : String) : Bool := strFindSub p.data s.data

/-- Python `s.endswith(p)`: `p` is a suffix of `s`. -/
def pyEndsWith (s p : String) : Bool := strMatchHere p.data.reverse s.data.reverse

/-- Error conditions of the script.  The source terminates with `exit(1)` at
each of these sites; the constructors label the distinct exit sites using the
taxonomy of the specification. -/
inductive Err where
  | notFound (name : String)
  | alreadyExists (name : String)
  | duplicateName (nicName : String)
  | timeout
  | fatal (msg : String)
deriving Repr, DecidableEq

/-- Property bag of a server, volume, NIC or firewall rule (`properties` in
the JSON files).  Only the keys the source code reads or writes are explicit;
`bag` carries the remaining key/value pairs opaquely. -/
structure Props where
  name : String
  imagePassword : Option (Option String) := none
  userData : Option String := none
  bag : List (String × String) := []
deriving Repr, DecidableEq

instance : Inhabited Props := ⟨{ name := "" }⟩

/-- A declared firewall rule (an entry of a NIC's `firewallrules` list). -/
structure FwRule where
  properties : Props
deriving Repr, DecidableEq

/-- A declared volume or NIC: a JSON object with a `properties` bag and, for
NICs, an optional `firewallrules` list (`none` = key absent). -/
structure Component where
  properties : Props
  firewallrules : Option (List FwRule) := none
deriving Repr, DecidableEq

instance : Inhabited Component := ⟨{ properties := default }⟩

/-- The `server` object of a JSON file: its property bag and the embedded
entity collections `entities.volumes.items` and `entities.nics.items`. -/
structure ServerSpec where
  properties : Props
  entityVolumes : List Component := []
  entityNics : List Component := []
deriving Repr, DecidableEq

/-- One per-server JSON file: the `server` object plus the standalone
`volumes` and `nics` lists used for later attach/detach. -/
structure JsonFile where
  server : ServerSpec
  volumes : List Component := []
  nics : List Component := []
deriving Repr, DecidableEq

/-- The in-memory desired-state model: file name (`<server>.json`) to parsed
contents, as produced by `globbing`. -/
abbrev JsonFiles := List (String × JsonFile)

/-- The component type selector, Python string `"volumes"` or `"nics"`. -/
inductive CompType where
  | volumes
  | nics
deriving Repr, DecidableEq

/-- The Python string value of a component type. -/
def CompType.str : CompType → String
  | .volumes => "volumes"
  | .nics => "nics"

/-- Selects the standalone list of a JSON file (`json_file[type]`). -/
def JsonFile.comps (jf : JsonFile) : CompType → List Component
  | .volumes => jf.volumes
  | .nics => jf.nics

/-- Selects the embedded entity list
(`json_file["server"]["entities"][type]["items"]`). -/
def ServerSpec.entityComps (s : ServerSpec) : CompType → List Component
  | .volumes => s.entityVolumes
  | .nics => s.entityNics

/-- One member of a remote collection: its href and its `properties.name`
as fetched from the item detail representation. -/
structure RemoteItem where
  href : String
  name : String
deriving Repr, DecidableEq

/-- The fields the code reads out of the response of a component-attach POST:
`component["properties"]["name"]` and `component["id"]`. -/
structure CompResp where
  name : String
  id : String
deriving Repr, DecidableEq

/-- The remote API environment, held fixed during one operation: collection
listings, per-href lifecycle state, live attached components, and the data
returned by creation POSTs. -/
structure Remote where
  datacenters : List RemoteItem
  servers : List RemoteItem
  state : String → Option String
  attached : String → CompType → List RemoteItem
  createHref : String
  attachResp : String → Props → CompResp

/-- The process environment and filesystem facts the engine consults:
`DATACENTER`, the `cloud-configs` directory listing, and the (externally
assembled, base64-encoded) `user_data` result per template file name. -/
structure Env where
  datacenterName : String
  cloudConfigs : List String
  userDataFor : String → String

/-- Full static context of one invocation. -/
structure Ctx where
  env : Env
  remote : Remote

/-- The name of the server listed at a given href, as obtained by
`json.loads(requests.get(api_url).text)["properties"]["name"]`. -/
def Remote.serverNameAt (R : Remote) (href : String) : Option String :=
  (R.servers.find? fun it => it.href == href).map (fun it => it.name)

/-- Observable remote requests and local waiting, in program order. -/
inductive Event where
  | getReq (url : String)
  | postServer (url : String) (payload : ServerSpec)
  | postComp (url : String) (properties : Props)
  | postFw (url : String) (nicName : String) (rule : FwRule)
  | patchBootVolume (url : String) (id : String)
  | deleteReq (url : String)
  | sleepEv
deriving Repr, DecidableEq

/-- The mutating requests (POST/PATCH/DELETE) of a trace, in order. -/
def mutEvents : List Event → List Event
  | [] => []
  | Event.postServer u p :: t => Event.postServer u p :: mutEvents t
  | Event.postComp u p :: t => Event.postComp u p :: mutEvents t
  | Event.postFw u n r :: t => Event.postFw u n r :: mutEvents t
  | Event.patchBootVolume u i :: t => Event.patchBootVolume u i :: mutEvents t
  | Event.deleteReq u :: t => Event.deleteReq u :: mutEvents t
  | Event.getReq _ :: t => mutEvents t
  | Event.sleepEv :: t => mutEvents t

/-- Number of `time.sleep(5)` calls recorded in a trace. -/
def countSleeps : List Event → Nat
  | [] => 0
  | Event.sleepEv :: t => countSleeps t + 1
  | _ :: t => countSleeps t

/-- Does the trace contain a boot-device PATCH? -/
def hasPatch : List Event → Bool
  | [] => false
  | Event.patchBootVolume _ _ :: _ => true
  | _ :: t => hasPatch t

/-- The firewall-rule creation POSTs of a trace that target the given NIC
name. -/
def fwPostsFor (nicName : String) : List Event → List Event
  | [] => []
  | Event.postFw u n r :: t =>
    if n = nicName then Event.postFw u n r :: fwPostsFor nicName t
    else fwPostsFor nicName t
  | _ :: t => fwPostsFor nicName t

/-- Number of firewall-rule creation POSTs in a trace. -/
def fwPostCount : List Event → Nat
  | [] => 0
  | Event.postFw _ _ _ :: t => fwPostCount t + 1
  | _ :: t => fwPostCount t

/-- Passive events: read-only GETs and sleeps, issuing no mutation. -/
def isPassive : Event → Bool
  | Event.getReq _ => true
  | Event.sleepEv => true
  | _ => false

/-- URL of the datacenters collection (`URL_DATACENTERS`). -/
def URL_DATACENTERS : String := "https://api.ionos.com/cloudapi/v6/datacenters"

/-- Scanning part of `name_to_href`: fetch each item's detail and return the
href of the first whose `properties.name` matches, with the issued GETs. -/
def name_to_href_scan (name : String) : List RemoteItem → List Event × Option String
  | [] => ([], none)
  | it :: rest =>
    if it.name == name then ([Event.getReq it.href], some it.href)
    else
      let (evs, r) := name_to_href_scan name rest
      (Event.getReq it.href :: evs, r)

/-- Models `name_to_href(name, api_url, auth_headers)`: one collection GET plus one
GET per scanned member; `exit(1)` (here `Err.notFound`) if no member matches. -/
def name_to_href (name : String) (items : List RemoteItem) (api_url : String) :
    List Event × Except Err String :=
  let (evs, r) := name_to_href_scan name items
  (Event.getReq api_url :: evs,
    match r with
    | some h => Except.ok h
    | none => Except.error (Err.notFound name))

/-- Scanning part of `server_exists`: fetch each item's detail until one's
`properties.name` matches. -/
def server_exists_scan (server_name : String) : List RemoteItem → List Event × Bool
  | [] => ([], false)
  | it :: rest =>
    if it.name == server_name then ([Event.getReq it.href], true)
    else
      let (evs, b) := server_exists_scan server_name rest
      (Event.getReq it.href :: evs, b)

/-- Models `server_exists(server_name, api_url, auth_headers)`: read-only existence
check by name over the collection at `api_url`. -/
def server_exists (server_name : String) (items : List RemoteItem) (api_url : String) :
    List Event × Bool :=
  let (evs, b) := server_exists_scan server_name items
  (Event.getReq api_url :: evs, b)

/-- State of one href on one poll: the fetched `metadata.state`, with a
`KeyError` (absent field, modelled `none`) treated as `"BUSY"`. -/
def pollStatus (st : String → Option String) (h : String) : String :=
  (st h).getD "BUSY"

/-- The hrefs actually fetched in one polling round of `all_available`: the
`for` loop breaks at the first href not reporting `"AVAILABLE"`. -/
def pollFetches (st : String → Option String) : List String → List String
  | [] => []
  | h :: rest =>
    if pollStatus st h == "AVAILABLE" then h :: pollFetches st rest else [h]

/-- Does every href of the set report `"AVAILABLE"` on this polling round? -/
def pollAllAvailable (st : String → Option String) (hrefs : List String) : Bool :=
  hrefs.all (fun h => pollStatus st h == "AVAILABLE")

/-- Loop of `all_available`, with the remaining attempt budget as fuel.  The
iteration first checks `limit == 0` (raising `Timeout`), then sleeps 5 time
units, then polls every href of the round; `round` counts completed polling
rounds so far and the `status` argument gives each round's fetched states.
On success the returned value is the total number of polling rounds. -/
def all_available_go (status : Nat → String → Option String) (hrefs : List String)
    (round : Nat) : Nat → List Event × Except Err Nat
  | 0 => ([], Except.error Err.timeout)
  | limit + 1 =>
    let evs := Event.sleepEv :: (pollFetches (status round) hrefs).map Event.getReq
    if pollAllAvailable (status round) hrefs then (evs, Except.ok (round + 1))
    else
      let (evs2, r) := all_available_go status hrefs (round + 1) limit
      (evs ++ evs2, r)

/-- Models `all_available(hrefs, auth_headers)`: blocks until every href of the set
reports `"AVAILABLE"` on the same polling round, with an attempt budget of
120 (`limit = 120`), `exit(1)` (`Err.timeout`) on exhaustion. -/
def all_available (status : Nat → String → Option String) (hrefs : List String) :
    List Event × Except Err Nat :=
  all_available_go status hrefs 0 120

/-- The alphabet `string.ascii_uppercase + string.ascii_lowercase +
string.digits` from which image passwords are drawn. -/
def passwordAlphabet : List Char :=
  "ABCDEFGHIJKLMNOPQRSTUVWXYZabcdefghijklmnopqrstuvwxyz0123456789".data

/-- One evaluation of the inline password generation
`"".join(random.choices(string.ascii_uppercase + string.ascii_lowercase +
string.digits, k=32))`: `choices` gives the 32 random draws. -/
def generateImagePassword (choices : Fin 32 → Fin 62) : String :=
  String.mk ((List.finRange 32).map (fun i => passwordAlphabet.getD (choices i).val 'A'))

/-- Strips the unrecognized `firewallrules` field from every embedded NIC of
the deep-copied creation payload (`del item["firewallrules"]`). -/
def stripFirewallrules (nics : List Component) : List Component :=
  nics.map (fun n => { n with firewallrules := none })

/-- The password-substitution loop of `create_single` over the embedded
volumes: a volume whose `imagePassword` is null (`some none`) receives the
next generated password; a volume whose `properties` bag has no
`imagePassword` key at all (`none`) raises `KeyError`, which the source
catches OUTSIDE the loop, so the loop aborts there and all later volumes are
left untouched.  Returns the updated list and the updated generation counter. -/
def substPasswords (rng : Nat → Fin 32 → Fin 62) (k : Nat) :
    List Component → List Component × Nat
  | [] => ([], k)
  | v :: rest =>
    match v.properties.imagePassword with
    | none => (v :: rest, k)
    | some none =>
      let v2 : Component :=
        { v with properties :=
            { v.properties with imagePassword := some (some (generateImagePassword (rng k))) } }
      let (rest2, k2) := substPasswords rng (k + 1) rest
      (v2 :: rest2, k2)
    | some (some _) =>
      let (rest2, k2) := substPasswords rng k rest
      (v :: rest2, k2)

/-- The userData loop of `create_single` over the embedded volumes: a volume
whose name has a matching template file `<name>.yaml` in the `cloud-configs`
directory and whose name contains `"-boot"` (Python substring test) receives
the assembled base64 payload as `userData`. -/
def attachUserData (env : Env) (vols : List Component) : List Component :=
  vols.map (fun v =>
    let name := v.properties.name
    let file_name := name ++ ".yaml"
    if file_name ∈ env.cloudConfigs ∧ pyIn "-boot" name = true then
      { v with properties :=
          { v.properties with userData := some (env.userDataFor file_name) } }
    else v)

/-- The creation payload `server_deepcopy` built by `create_single` from the
JSON file's `server` object: firewall rules stripped from embedded NICs, null
image passwords substituted, boot-script userData attached.  Also returns the
updated password-generation counter. -/
def create_payload (env : Env) (rng : Nat → Fin 32 → Fin 62) (k : Nat)
    (jf : JsonFile) : ServerSpec × Nat :=
  let s := jf.server
  let nics2 := stripFirewallrules s.entityNics
  let (vols1, k2) := substPasswords rng k s.entityVolumes
  let vols2 := attachUserData env vols1
  ({ s with entityNics := nics2, entityVolumes := vols2 }, k2)

/-- Models `create_single(server_name, json_files, api_url, auth_headers)`: builds
the creation payload on a deep copy (the shared `json_files` map is returned
unchanged), POSTs it, and waits on the new server's href.  Returns the trace,
the (unchanged) `json_files`, the password counter and the new href. -/
def create_single (ctx : Ctx) (files : JsonFiles) (server_name : String)
    (api_url : String) (rng : Nat → Fin 32 → Fin 62) (k : Nat) :
    List Event × JsonFiles × Nat × Except Err String :=
  match files.lookup (server_name ++ ".json") with
  | none => ([], files, k, Except.error (Err.fatal "KeyError"))
  | some jf =>
    let pk := create_payload ctx.env rng k jf
    let href := ctx.remote.createHref
    let ar := all_available (fun _ => ctx.remote.state) [href]
    (Event.postServer api_url pk.1 :: ar.1, files, pk.2, ar.2.map (fun _ => href))

/-- The component names the attach guard consults: the standalone list only
(`components = [t["properties"]["name"] for t in json_file[type]]`). -/
def attachComponentNames (jf : JsonFile) (ty : CompType) : List String :=
  (jf.comps ty).map (fun c => c.properties.name)

/-- The component names the detach guard consults: standalone list followed
by the embedded entity items
(`json_file[type] + json_file["server"]["entities"][type]["items"]`). -/
def detachComponentNames (jf : JsonFile) (ty : CompType) : List String :=
  ((jf.comps ty) ++ (jf.server.entityComps ty)).map (fun c => c.properties.name)

/-- Replaces the JSON file bound to `key` in the shared map, embedding the
in-place mutation of `json_files[server_name + ".json"]` through aliasing. -/
def setJson (files : JsonFiles) (key : String) (jf : JsonFile) : JsonFiles :=
  files.map (fun p => if p.1 = key then (p.1, jf) else p)

/-- Replaces the standalone component of the given type at index `idx`. -/
def JsonFile.setComp (jf : JsonFile) (ty : CompType) (idx : Nat) (c : Component) : JsonFile :=
  match ty with
  | .volumes => { jf with volumes := jf.volumes.set idx c }
  | .nics => { jf with nics := jf.nics.set idx c }

/-- The in-place mutation `attach_single` performs on the shared JSON file
entry before posting: for volumes, a null `imagePassword` is replaced by a
generated one (a missing key raises `KeyError`, caught per item, so it is
skipped); then, when the `<server_name>-boot.yaml` template exists and the
component name contains `"-boot"`, the assembled userData is written.
Returns the updated file and password counter. -/
def attachMutate (ctx : Ctx) (jf : JsonFile) (server_name name : String)
    (ty : CompType) (rng : Nat → Fin 32 → Fin 62) (k : Nat) : JsonFile × Nat :=
  let idx := (attachComponentNames jf ty).indexOf name
  let comp := (jf.comps ty).getD idx default
  let (jf1, k1) :=
    if ty = CompType.volumes then
      match comp.properties.imagePassword with
      | some none =>
        (jf.setComp ty idx
          { comp with properties :=
              { comp.properties with
                imagePassword := some (some (generateImagePassword (rng k))) } },
          k + 1)
      | _ => (jf, k)
    else (jf, k)
  let comp1 := (jf1.comps ty).getD idx default
  let file_name := server_name ++ "-boot.yaml"
  if ty = CompType.volumes ∧ file_name ∈ ctx.env.cloudConfigs ∧ pyIn "-boot" name = true then
    (jf1.setComp ty idx
      { comp1 with properties :=
          { comp1.properties with userData := some (ctx.env.userDataFor file_name) } },
      k1)
  else (jf1, k1)

/-- The `properties` object `attach_single` sends in its creation POST: the
selected component's properties after the in-place mutation. -/
def attachProps (ctx : Ctx) (jf : JsonFile) (server_name name : String)
    (ty : CompType) (rng : Nat → Fin 32 → Fin 62) (k : Nat) : Props :=
  let idx := (attachComponentNames jf ty).indexOf name
  (((attachMutate ctx jf server_name name ty rng k).1.comps ty).getD idx default).properties

/-- Models `attach_single(href, server_name, name, type, json_files, auth_headers)`:
guards (datacenter resolution, remote server existence, declared-name lookup
in the STANDALONE list), then mutates the shared `json_files` entry in place
(`attachMutate`), POSTs the mutated properties, waits, PATCHes the boot
volume when the response name ends with `"-boot"`, waits again.  Returns the
trace, the (possibly mutated) `json_files`, the password counter and the
result. -/
def attach_single (ctx : Ctx) (files : JsonFiles) (href server_name name : String)
    (ty : CompType) (rng : Nat → Fin 32 → Fin 62) (k : Nat) :
    List Event × JsonFiles × Nat × Except Err Unit :=
  let (e1, r1) := name_to_href ctx.env.datacenterName ctx.remote.datacenters URL_DATACENTERS
  match r1 with
  | .error e => (e1, files, k, Except.error e)
  | .ok dchref =>
    let urlServers := dchref ++ "/servers"
    let (e2, b) := server_exists server_name ctx.remote.servers urlServers
    if b then
      match files.lookup (server_name ++ ".json") with
      | none => (e1 ++ e2, files, k, Except.error (Err.fatal "KeyError"))
      | some jf =>
        let components := attachComponentNames jf ty
        if name ∈ components then
          let url_type := href ++ "/" ++ ty.str
          let (jf2, k1) := attachMutate ctx jf server_name name ty rng k
          let props := attachProps ctx jf server_name name ty rng k
          let files2 := setJson files (server_name ++ ".json") jf2
          let comp_resp := ctx.remote.attachResp url_type props
          let eHead := e1 ++ e2 ++ [Event.postComp url_type props]
          let (e4, r4) := all_available (fun _ => ctx.remote.state) [href]
          match r4 with
          | .error e => (eHead ++ e4, files2, k1, Except.error e)
          | .ok _ =>
            if ty = CompType.volumes ∧ pyEndsWith comp_resp.name "-boot" = true then
              let (e5, r5) := all_available (fun _ => ctx.remote.state) [href]
              (eHead ++ e4 ++ [Event.patchBootVolume href comp_resp.id] ++ e5,
                files2, k1, r5.map (fun _ => ()))
            else
              let (e5, r5) := all_available (fun _ => ctx.remote.state) [href]
              (eHead ++ e4 ++ e5, files2, k1, r5.map (fun _ => ()))
        else (e1 ++ e2, files, k, Except.error (Err.notFound name))
    else (e1 ++ e2, files, k, Except.error (Err.notFound server_name))

/-- The loop of `attach` over the declared standalone components of the
selected type, threading the (possibly mutated) `json_files` and the
password counter, aborting at the first failing `attach_single`. -/
def attach_items (ctx : Ctx) (files : JsonFiles) (server_name href : String)
    (ty : CompType) (rng : Nat → Fin 32 → Fin 62) (k : Nat) :
    List Component → List Event × JsonFiles × Nat × Except Err Unit
  | [] => ([], files, k, Except.ok ())
  | c :: rest =>
    let (e1, files1, k1, r1) :=
      attach_single ctx files href server_name c.properties.name ty rng k
    match r1 with
    | .error e => (e1, files1, k1, Except.error e)
    | .ok _ =>
      let (e2, files2, k2, r2) := attach_items ctx files1 server_name href ty rng k1 rest
      (e1 ++ e2, files2, k2, r2)

/-- Models `attach(type, json_files, api_url, auth_headers)`: reads the server name
at `api_url` and attaches every declared standalone component of the type. -/
def attach (ctx : Ctx) (files : JsonFiles) (ty : CompType) (api_url : String)
    (rng : Nat → Fin 32 → Fin 62) (k : Nat) :
    List Event × JsonFiles × Nat × Except Err Unit :=
  match ctx.remote.serverNameAt api_url with
  | none => ([Event.getReq api_url], files, k, Except.error (Err.fatal "KeyError"))
  | some server_name =>
    match files.lookup (server_name ++ ".json") with
    | none => ([Event.getReq api_url], files, k, Except.error (Err.fatal "KeyError"))
    | some jf =>
      let (e, files2, k2, r) :=
        attach_items ctx files server_name api_url ty rng k (jf.comps ty)
      (Event.getReq api_url :: e, files2, k2, r)

/-- Models `delete_single(server_object, auth_headers)`: DELETE the server href. -/
def delete_single (server_href : String) : List Event × Except Err Unit :=
  ([Event.deleteReq server_href], Except.ok ())

/-- Models `detach_single(href, server_name, name, type, json_files, auth_headers)`:
guards (datacenter resolution, remote server existence, declared-name lookup
in standalone PLUS embedded lists), then DELETEs the component href, resolves
the server href again and waits for availability.  Never mutates
`json_files`. -/
def detach_single (ctx : Ctx) (files : JsonFiles) (href server_name name : String)
    (ty : CompType) : List Event × Except Err Unit :=
  let (e1, r1) := name_to_href ctx.env.datacenterName ctx.remote.datacenters URL_DATACENTERS
  match r1 with
  | .error e => (e1, Except.error e)
  | .ok dchref =>
    let urlServers := dchref ++ "/servers"
    let (e2, b) := server_exists server_name ctx.remote.servers urlServers
    if b then
      match files.lookup (server_name ++ ".json") with
      | none => (e1 ++ e2, Except.error (Err.fatal "KeyError"))
      | some jf =>
        let components := detachComponentNames jf ty
        if name ∈ components then
          let (e4, r4) := name_to_href server_name ctx.remote.servers urlServers
          match r4 with
          | .error e => (e1 ++ e2 ++ [Event.deleteReq href] ++ e4, Except.error e)
          | .ok server_href =>
            let (e5, r5) := all_available (fun _ => ctx.remote.state) [server_href]
            (e1 ++ e2 ++ [Event.deleteReq href] ++ e4 ++ e5, r5.map (fun _ => ()))
        else (e1 ++ e2, Except.error (Err.notFound name))
    else (e1 ++ e2, Except.error (Err.notFound server_name))

/-- The loop of `detach` over the LIVE attached component items fetched from
the remote collection, aborting at the first failing `detach_single`; each
iteration first GETs the item detail to read its name. -/
def detach_items (ctx : Ctx) (files : JsonFiles) (server_name : String)
    (ty : CompType) : List RemoteItem → List Event × Except Err Unit
  | [] => ([], Except.ok ())
  | it :: rest =>
    let (e1, r1) := detach_single ctx files it.href server_name it.name ty
    match r1 with
    | .error e => (Event.getReq it.href :: e1, Except.error e)
    | .ok _ =>
      let (e2, r2) := detach_items ctx files server_name ty rest
      (Event.getReq it.href :: (e1 ++ e2), r2)

/-- Models `detach(type, json_files, api_url, auth_headers)`: reads the server name
at `api_url`, lists the live attached components of the type and detaches
each of them. -/
def detach (ctx : Ctx) (files : JsonFiles) (ty : CompType) (api_url : String) :
    List Event × Except Err Unit :=
  match ctx.remote.serverNameAt api_url with
  | none => ([Event.getReq api_url], Except.error (Err.fatal "KeyError"))
  | some server_name =>
    let url_type := api_url ++ "/" ++ ty.str
    let items := ctx.remote.attached api_url ty
    let (e, r) := detach_items ctx files server_name ty items
    (Event.getReq api_url :: Event.getReq url_type :: e, r)

/-- Models `delete(server_name, json_files, api_url, auth_headers)`: existence
guard, server href resolution, availability wait, detach all live NICs, then
all live volumes, finally DELETE the server itself. -/
def delete (ctx : Ctx) (files : JsonFiles) (server_name api_url : String) :
    List Event × Except Err Unit :=
  let (e1, b) := server_exists server_name ctx.remote.servers api_url
  if b then
    let (e2, r2) := name_to_href server_name ctx.remote.servers api_url
    match r2 with
    | .error e => (e1 ++ e2, Except.error e)
    | .ok server_href =>
      let (e4, r4) := all_available (fun _ => ctx.remote.state) [server_href]
      match r4 with
      | .error e => (e1 ++ e2 ++ [Event.getReq server_href] ++ e4, Except.error e)
      | .ok _ =>
        let (e5, r5) := detach ctx files CompType.nics server_href
        match r5 with
        | .error e => (e1 ++ e2 ++ [Event.getReq server_href] ++ e4 ++ e5, Except.error e)
        | .ok _ =>
          let (e6, r6) := detach ctx files CompType.volumes server_href
          match r6 with
          | .error e =>
            (e1 ++ e2 ++ [Event.getReq server_href] ++ e4 ++ e5 ++ e6, Except.error e)
          | .ok _ =>
            let (e7, r7) := delete_single server_href
            (e1 ++ e2 ++ [Event.getReq server_href] ++ e4 ++ e5 ++ e6 ++ e7, r7)
  else (e1, Except.error (Err.notFound server_name))

/-- Inner posting loop of `fwrules_create_single` over the rules of one
matched NIC occurrence: every rule whose name equals the requested one is
POSTed to the NIC's firewallrules collection (resolving server and NIC hrefs
by name each time), followed by an availability wait. -/
def fwrules_post_loop (ctx : Ctx) (server_name nic_name name urlServers : String) :
    List FwRule → List Event × Except Err Unit
  | [] => ([], Except.ok ())
  | rule :: rest =>
    if rule.properties.name == name then
      let (e1, r1) := name_to_href server_name ctx.remote.servers urlServers
      match r1 with
      | .error e => (e1, Except.error e)
      | .ok shref =>
        let nic_href := shref ++ "/nics"
        let (e2, r2) := name_to_href nic_name (ctx.remote.attached shref CompType.nics) nic_href
        match r2 with
        | .error e => (e1 ++ e2, Except.error e)
        | .ok nhref =>
          let fw_href := nhref ++ "/firewallrules"
          let (e4, r4) := name_to_href server_name ctx.remote.servers urlServers
          match r4 with
          | .error e => (e1 ++ e2 ++ [Event.postFw fw_href nic_name rule] ++ e4, Except.error e)
          | .ok shref2 =>
            let (e5, r5) := all_available (fun _ => ctx.remote.state) [shref2]
            match r5 with
            | .error e =>
              (e1 ++ e2 ++ [Event.postFw fw_href nic_name rule] ++ e4 ++ e5, Except.error e)
            | .ok _ =>
              let (e6, r6) := fwrules_post_loop ctx server_name nic_name name urlServers rest
              (e1 ++ e2 ++ [Event.postFw fw_href nic_name rule] ++ e4 ++ e5 ++ e6, r6)
    else fwrules_post_loop ctx server_name nic_name name urlServers rest

/-- Scan of `fwrules_create_single` over ALL declared NIC occurrences
(standalone list followed by embedded items): every occurrence whose name
matches is processed; a missing `firewallrules` key raises `KeyError`
(unhandled, modelled fatal); duplicate rule names on the occurrence abort
with `DuplicateName` BEFORE any rule of that occurrence is posted. -/
def fwrules_nic_scan (ctx : Ctx) (name server_name nic_name urlServers : String) :
    List Component → List Event × Except Err Unit
  | [] => ([], Except.ok ())
  | nic :: rest =>
    if nic.properties.name == nic_name then
      match nic.firewallrules with
      | none => ([], Except.error (Err.fatal "KeyError"))
      | some rules =>
        if (rules.map (fun r => r.properties.name)).dedup.length ≠ rules.length then
          ([], Except.error (Err.duplicateName nic_name))
        else
          let (e1, r1) := fwrules_post_loop ctx server_name nic_name name urlServers rules
          match r1 with
          | .error e => (e1, Except.error e)
          | .ok _ =>
            let (e2, r2) := fwrules_nic_scan ctx name server_name nic_name urlServers rest
            (e1 ++ e2, r2)
    else fwrules_nic_scan ctx name server_name nic_name urlServers rest

/-- Models `fwrules_create_single(name, server_name, nic_name, json_files,
auth_headers)`: datacenter resolution, server existence guard, then the scan
over all declared NIC occurrences. -/
def fwrules_create_single (ctx : Ctx) (files : JsonFiles)
    (name server_name nic_name : String) : List Event × Except Err Unit :=
  let (e1, r1) := name_to_href ctx.env.datacenterName ctx.remote.datacenters URL_DATACENTERS
  match r1 with
  | .error e => (e1, Except.error e)
  | .ok dchref =>
    let urlServers := dchref ++ "/servers"
    let (e2, b) := server_exists server_name ctx.remote.servers urlServers
    if b then
      match files.lookup (server_name ++ ".json") with
      | none => (e1 ++ e2, Except.error (Err.fatal "KeyError"))
      | some jf =>
        let nics := jf.nics ++ jf.server.entityNics
        let (e3, r3) := fwrules_nic_scan ctx name server_name nic_name urlServers nics
        (e1 ++ e2 ++ e3, r3)
    else (e1 ++ e2, Except.error (Err.notFound server_name))

/-- Loop of `fwrules_create` over the rules declared on one NIC occurrence:
one `fwrules_create_single` call per declared rule. -/
def fwrules_rules_loop (ctx : Ctx) (files : JsonFiles) (server_name nic_name : String) :
    List FwRule → List Event × Except Err Unit
  | [] => ([], Except.ok ())
  | r :: rest =>
    let (e1, r1) := fwrules_create_single ctx files r.properties.name server_name nic_name
    match r1 with
    | .error e => (e1, Except.error e)
    | .ok _ =>
      let (e2, r2) := fwrules_rules_loop ctx files server_name nic_name rest
      (e1 ++ e2, r2)

/-- Loop of `fwrules_create` over all declared NIC occurrences (standalone
list followed by embedded items); occurrences without a `firewallrules` key
are skipped. -/
def fwrules_nics_loop (ctx : Ctx) (files : JsonFiles) (server_name : String) :
    List Component → List Event × Except Err Unit
  | [] => ([], Except.ok ())
  | nic :: rest =>
    match nic.firewallrules with
    | none => fwrules_nics_loop ctx files server_name rest
    | some rules =>
      let (e1, r1) := fwrules_rules_loop ctx files server_name nic.properties.name rules
      match r1 with
      | .error e => (e1, Except.error e)
      | .ok _ =>
        let (e2, r2) := fwrules_nics_loop ctx files server_name rest
        (e1 ++ e2, r2)

/-- Models `fwrules_create(server_name, json_files, auth_headers)`: creates all
firewall rules of all declared NIC occurrences of the server. -/
def fwrules_create (ctx : Ctx) (files : JsonFiles) (server_name : String) :
    List Event × Except Err Unit :=
  match files.lookup (server_name ++ ".json") with
  | none => ([], Except.error (Err.fatal "KeyError"))
  | some jf =>
    fwrules_nics_loop ctx files server_name (jf.nics ++ jf.server.entityNics)

/-- Models `create(server_name, json_files, api_url, auth_headers)`: guard against a
remotely existing same-named server, then `create_single`, attach all
declared volumes, attach all declared NICs, and synchronize firewall rules. -/
def create (ctx : Ctx) (files : JsonFiles) (server_name api_url : String)
    (rng : Nat → Fin 32 → Fin 62) (k : Nat) :
    List Event × JsonFiles × Nat × Except Err Unit :=
  let (e1, b) := server_exists server_name ctx.remote.servers api_url
  if b then (e1, files, k, Except.error (Err.alreadyExists server_name))
  else
    let (e2, files2, k2, r2) := create_single ctx files server_name api_url rng k
    match r2 with
    | .error e => (e1 ++ e2, files2, k2, Except.error e)
    | .ok href =>
      let (e3, files3, k3, r3) := attach ctx files2 CompType.volumes href rng k2
      match r3 with
      | .error e => (e1 ++ e2 ++ e3, files3, k3, Except.error e)
      | .ok _ =>
        let (e4, files4, k4, r4) := attach ctx files3 CompType.nics href rng k3
        match r4 with
        | .error e => (e1 ++ e2 ++ e3 ++ e4, files4, k4, Except.error e)
        | .ok _ =>
          let (e5, r5) := fwrules_create ctx files4 server_name
          (e1 ++ e2 ++ e3 ++ e4 ++ e5, files4, k4, r5)

/-- A concrete remote environment: one datacenter `dc1` at href `D`, one
server `web1` at href `S` (always `AVAILABLE`), with the given live attached
NICs and volumes. -/
def mkRemote (nics vols : List RemoteItem) : Remote :=
  { datacenters := [⟨"D", "dc1"⟩]
    servers := [⟨"S", "web1"⟩]
    state := fun h => if h = "S" then some "AVAILABLE" else none
    attached := fun h ty =>
      if h = "S" then (match ty with | .nics => nics | .volumes => vols) else []
    createHref := "S"
    attachResp := fun _ p => ⟨p.name, "id0"⟩ }

/-- A concrete process environment for datacenter `dc1`. -/
def mkEnv (configs : List String) : Env :=
  { datacenterName := "dc1", cloudConfigs := configs,
    userDataFor := fun f => "UD:" ++ f }

/-- A concrete invocation context combining `mkRemote` and `mkEnv`. -/
def mkCtx (nics vols : List RemoteItem) (configs : List String) : Ctx :=
  { env := mkEnv configs, remote := mkRemote nics vols }

/-- A fixed stream of random draws (always the first alphabet letter). -/
def rng0 : Nat → Fin 32 → Fin 62 := fun _ _ => 0

/-- Number of volumes with a null image password among the first `i` ones. -/
def nullsBefore (vols : List Component) (i : Nat) : Nat :=
  ((vols.take i).filter (fun c => c.properties.imagePassword == some none)).length

/-- State sequence reporting `BUSY` on the first two polling rounds and
`AVAILABLE` from the third on, for every href. -/
def busyBusyAvailable : Nat → String → Option String :=
  fun r _ => if r < 2 then some "BUSY" else some "AVAILABLE"

def filesC1 : JsonFiles := [("web1.json", { server := { properties := { name := "web1" } } })]

def ctxC1 : Ctx := mkCtx [⟨"N1", "rogue"⟩] [] []

/-- Declared configuration matching the live attached components below. -/
def jfC1w : JsonFile :=
  { server := { properties := { name := "web1" } }
    volumes := [{ properties := { name := "v1", imagePassword := some (some "pw") } }]
    nics := [{ properties := { name := "n1" } }] }

def filesC1w : JsonFiles := [("web1.json", jfC1w)]

def ctxC1w : Ctx := mkCtx [⟨"N1", "n1"⟩] [⟨"V1", "v1"⟩] []

def ruleR1 : FwRule := { properties := { name := "r1" } }

def nicDecl : Component := { properties := { name := "nic1" }, firewallrules := some [ruleR1] }

/-- The double declaration: the same NIC (with an identical single-rule
firewallrules collection) in the standalone list and the embedded entities. -/
def jfC10 : JsonFile :=
  { server := { properties := { name := "web1" }, entityNics := [nicDecl] }
    nics := [nicDecl] }

def filesC10 : JsonFiles := [("web1.json", jfC10)]

def ctxC10 : Ctx := mkCtx [⟨"S/nics/1", "nic1"⟩] [] []

def jfC7 : JsonFile :=
  { server := { properties := { name := "web1" } }
    nics := [{ properties := { name := "nic1" },
               firewallrules := some [ruleR1, ruleR1] }] }

def filesC7 : JsonFiles := [("web1.json", jfC7)]

def ctxC7 : Ctx := mkCtx [⟨"S/nics/1", "nic1"⟩] [] []

def filesC5 : JsonFiles :=
  [("web1.json",
    { server := { properties := { name := "web1" },
                  entityVolumes := [{ properties := { name := "v1", imagePassword := some (some "pw") } }] } })]

def ctxC5 : Ctx := mkCtx [] [⟨"V1", "v1"⟩] []

def jfC4 : JsonFile :=
  { server := { properties := { name := "web1" } }
    volumes := [{ properties := { name := "v1", imagePassword := some none } }] }

def filesC4 : JsonFiles := [("web1.json", jfC4)]

def ctxC4 : Ctx := mkCtx [] [] []

def jfC6 : JsonFile :=
  { server := { properties := { name := "web1" }
                entityVolumes := [{ properties := { name := "v0" } },
                                  { properties := { name := "v1", imagePassword := some none } }] } }

/-- A configuration whose embedded volumes all carry the imagePassword key:
the first null, the second explicit. -/
def jfC6w : JsonFile :=
  { server := { properties := { name := "web1" }
                entityVolumes := [{ properties := { name := "v0", imagePassword := some none } },
                                  { properties := { name := "v1", imagePassword := some (some "pw") } }] } }

def jfC8 : JsonFile :=
  { server := { properties := { name := "web1" }
                entityVolumes := [{ properties := { name := "data-boot-2", imagePassword := some (some "p") } }] } }

/-! ### Trace helper lemmas -/

theorem mutEvents_append : ∀ s t : List Event, mutEvents (s ++ t) = mutEvents s ++ mutEvents t := by
  intro s t
  induction s with
  | nil => rfl
  | cons e s ih => cases e <;> simp [mutEvents, ih]

theorem countSleeps_append : ∀ s t : List Event, countSleeps (s ++ t) = countSleeps s + countSleeps t := by
  intro s t
  induction s with
  | nil => simp [countSleeps]
  | cons e s ih => cases e <;> simp [countSleeps, ih] <;> omega

theorem hasPatch_append : ∀ s t : List Event, hasPatch (s ++ t) = (hasPatch s || hasPatch t) := by
  intro s t
  induction s with
  | nil => simp [hasPatch]
  | cons e s ih => cases e <;> simp [hasPatch, ih]

theorem fwPostsFor_append (X : String) :
    ∀ s t : List Event, fwPostsFor X (s ++ t) = fwPostsFor X s ++ fwPostsFor X t := by
  intro s t
  induction s with
  | nil => rfl
  | cons e s ih =>
    cases e with
    | getReq u => simpa [fwPostsFor] using ih
    | postServer u p => simpa [fwPostsFor] using ih
    | postComp u p => simpa [fwPostsFor] using ih
    | patchBootVolume u i => simpa [fwPostsFor] using ih
    | deleteReq u => simpa [fwPostsFor] using ih
    | sleepEv => simpa [fwPostsFor] using ih
    | postFw u n r =>
      by_cases h : n = X
      · simp [fwPostsFor, h, ih]
      · simp [fwPostsFor, h, ih]

theorem fwPostCount_append : ∀ s t : List Event, fwPostCount (s ++ t) = fwPostCount s + fwPostCount t := by
  intro s t
  induction s with
  | nil => simp [fwPostCount]
  | cons e s ih => cases e <;> simp [fwPostCount, ih] <;> omega

theorem mutEvents_of_passive : ∀ t : List Event, (∀ e ∈ t, isPassive e = true) → mutEvents t = [] := by
  intro t ht
  induction t with
  | nil => rfl
  | cons e s ih =>
    have he := ht e (List.mem_cons_self e s)
    have hs : ∀ x ∈ s, isPassive x = true := fun x hx => ht x (List.mem_cons_of_mem e hx)
    cases e <;> simp [isPassive] at he <;> simp [mutEvents, ih hs]

theorem hasPatch_of_passive : ∀ t : List Event, (∀ e ∈ t, isPassive e = true) → hasPatch t = false := by
  intro t ht
  induction t with
  | nil => rfl
  | cons e s ih =>
    have he := ht e (List.mem_cons_self e s)
    have hs : ∀ x ∈ s, isPassive x = true := fun x hx => ht x (List.mem_cons_of_mem e hx)
    cases e <;> simp [isPassive] at he <;> simp [hasPatch, ih hs]

theorem fwPostsFor_of_passive (X : String) :
    ∀ t : List Event, (∀ e ∈ t, isPassive e = true) → fwPostsFor X t = [] := by
  intro t ht
  induction t with
  | nil => rfl
  | cons e s ih =>
    have he := ht e (List.mem_cons_self e s)
    have hs : ∀ x ∈ s, isPassive x = true := fun x hx => ht x (List.mem_cons_of_mem e hx)
    cases e <;> simp [isPassive] at he <;> simp [fwPostsFor, ih hs]

theorem fwPostCount_of_passive : ∀ t : List Event, (∀ e ∈ t, isPassive e = true) → fwPostCount t = 0 := by
  intro t ht
  induction t with
  | nil => rfl
  | cons e s ih =>
    have he := ht e (List.mem_cons_self e s)
    have hs : ∀ x ∈ s, isPassive x = true := fun x hx => ht x (List.mem_cons_of_mem e hx)
    cases e <;> simp [isPassive] at he <;> simp [fwPostCount, ih hs]

theorem passive_name_to_href_scan (n : String) :
    ∀ items : List RemoteItem, ∀ e ∈ (name_to_href_scan n items).1, isPassive e = true := by
  intro items
  induction items with
  | nil => intro e he; simp [name_to_href_scan] at he
  | cons it rest ih =>
    intro e he
    simp only [name_to_href_scan] at he
    by_cases h : (it.name == n) = true
    · rw [if_pos h] at he
      simp at he
      simp [he, isPassive]
    · rw [if_neg h] at he
      rcases hsc : name_to_href_scan n rest with ⟨evs, r⟩
      rw [hsc] at he
      simp at he
      rcases he with he | he
      · simp [he, isPassive]
      · have := ih e
        rw [hsc] at this
        exact this he

theorem passive_server_exists_scan (n : String) :
    ∀ items : List RemoteItem, ∀ e ∈ (server_exists_scan n items).1, isPassive e = true := by
  intro items
  induction items with
  | nil => intro e he; simp [server_exists_scan] at he
  | cons it rest ih =>
    intro e he
    simp only [server_exists_scan] at he
    by_cases h : (it.name == n) = true
    · rw [if_pos h] at he
      simp at he
      simp [he, isPassive]
    · rw [if_neg h] at he
      rcases hsc : server_exists_scan n rest with ⟨evs, r⟩
      rw [hsc] at he
      simp at he
      rcases he with he | he
      · simp [he, isPassive]
      · have := ih e
        rw [hsc] at this
        exact this he

theorem passive_name_to_href (n u : String) (items : List RemoteItem) :
    ∀ e ∈ (name_to_href n items u).1, isPassive e = true := by
  intro e he
  simp only [name_to_href] at he
  rcases hsc : name_to_href_scan n items with ⟨evs, r⟩
  rw [hsc] at he
  simp at he
  rcases he with he | he
  · simp [he, isPassive]
  · have := passive_name_to_href_scan n items e
    rw [hsc] at this
    exact this he

theorem passive_server_exists (n u : String) (items : List RemoteItem) :
    ∀ e ∈ (server_exists n items u).1, isPassive e = true := by
  intro e he
  simp only [server_exists] at he
  rcases hsc : server_exists_scan n items with ⟨evs, r⟩
  rw [hsc] at he
  simp at he
  rcases he with he | he
  · simp [he, isPassive]
  · have := passive_server_exists_scan n items e
    rw [hsc] at this
    exact this he

theorem passive_all_available_go (status : Nat → String → Option String) (hrefs : List String) :
    ∀ (fuel round : Nat), ∀ e ∈ (all_available_go status hrefs round fuel).1, isPassive e = true := by
  intro fuel
  induction fuel with
  | zero => intro round e he; simp [all_available_go] at he
  | succ n ih =>
    intro round e he
    simp only [all_available_go] at he
    by_cases h : pollAllAvailable (status round) hrefs = true
    · rw [if_pos h] at he
      simp at he
      rcases he with he | ⟨u, _, he⟩
      · simp [he, isPassive]
      · simp [← he, isPassive]
    · rw [if_neg h] at he
      rcases hgo : all_available_go status hrefs (round + 1) n with ⟨evs2, r⟩
      rw [hgo] at he
      simp at he
      rcases he with he | ⟨u, _, he⟩ | he
      · simp [he, isPassive]
      · simp [← he, isPassive]
      · have := ih (round + 1) e
        rw [hgo] at this
        exact this he

theorem passive_all_available (status : Nat → String → Option String) (hrefs : List String) :
    ∀ e ∈ (all_available status hrefs).1, isPassive e = true :=
  passive_all_available_go status hrefs 120 0

/-! ### Availability barrier lemmas -/

theorem all_available_go_timeout_iff (status : Nat → String → Option String) (hrefs : List String) :
    ∀ (fuel round : Nat),
      (all_available_go status hrefs round fuel).2 = Except.error Err.timeout ↔
        ∀ i < fuel, pollAllAvailable (status (round + i)) hrefs = false := by
  intro fuel
  induction fuel with
  | zero => intro round; simp [all_available_go]
  | succ n ih =>
    intro round
    simp only [all_available_go]
    by_cases h : pollAllAvailable (status round) hrefs = true
    · rw [if_pos h]
      constructor
      · intro hc; simp at hc
      · intro hall
        exact absurd (hall 0 (Nat.succ_pos n)) (by simp [h])
    · have h0 : pollAllAvailable (status round) hrefs = false := by simpa using h
      rw [if_neg h]
      rcases hgo : all_available_go status hrefs (round + 1) n with ⟨evs2, r⟩
      have ih2 := ih (round + 1)
      rw [hgo] at ih2
      show r = Except.error Err.timeout ↔
        ∀ i < n + 1, pollAllAvailable (status (round + i)) hrefs = false
      have ih3 : r = Except.error Err.timeout ↔
          ∀ i < n, pollAllAvailable (status (round + 1 + i)) hrefs = false := ih2
      rw [ih3]
      constructor
      · intro hall i hi
        cases i with
        | zero => simpa using h0
        | succ j =>
          have e : round + (j + 1) = round + 1 + j := by omega
          rw [e]
          exact hall j (by omega)
      · intro hall i hi
        have e : round + 1 + i = round + (i + 1) := by omega
        rw [e]
        exact hall (i + 1) (by omega)

theorem all_available_timeout_iff (status : Nat → String → Option String) (hrefs : List String) :
    (all_available status hrefs).2 = Except.error Err.timeout ↔
      ∀ r < 120, pollAllAvailable (status r) hrefs = false := by
  have := all_available_go_timeout_iff status hrefs 120 0
  simpa using this

theorem all_available_go_timeout_sleeps (status : Nat → String → Option String) (hrefs : List String) :
    ∀ (fuel round : Nat),
      (all_available_go status hrefs round fuel).2 = Except.error Err.timeout →
      countSleeps (all_available_go status hrefs round fuel).1 = fuel := by
  intro fuel
  induction fuel with
  | zero => intro round _; rfl
  | succ n ih =>
    intro round
    simp only [all_available_go]
    by_cases h : pollAllAvailable (status round) hrefs = true
    · rw [if_pos h]
      intro hc; simp at hc
    · rw [if_neg h]
      rcases hgo : all_available_go status hrefs (round + 1) n with ⟨evs2, r⟩
      have ih2 := ih (round + 1)
      rw [hgo] at ih2
      intro hr
      have hr2 : r = Except.error Err.timeout := hr
      have hsl : countSleeps evs2 = n := ih2 hr2
      show countSleeps
        ((Event.sleepEv :: (pollFetches (status round) hrefs).map Event.getReq) ++ evs2) = n + 1
      have hmap : ∀ us : List String, countSleeps (us.map Event.getReq) = 0 := by
        intro us
        induction us with
        | nil => rfl
        | cons u us ihu => simpa [countSleeps] using ihu
      simp [countSleeps, countSleeps_append, hmap, hsl]

theorem all_available_go_ok_lt (status : Nat → String → Option String) (hrefs : List String) :
    ∀ (fuel round n : Nat),
      (all_available_go status hrefs round fuel).2 = Except.ok n → round < n := by
  intro fuel
  induction fuel with
  | zero => intro round n h; simp [all_available_go] at h
  | succ m ih =>
    intro round n
    simp only [all_available_go]
    by_cases h : pollAllAvailable (status round) hrefs = true
    · rw [if_pos h]
      intro hok
      simp at hok
      omega
    · rw [if_neg h]
      rcases hgo : all_available_go status hrefs (round + 1) m with ⟨evs2, r⟩
      have ih2 := ih (round + 1) n
      rw [hgo] at ih2
      intro hr
      have hr2 : r = Except.ok n := hr
      have := ih2 hr2
      omega

theorem pollFetches_of_all (st : String → Option String) :
    ∀ hrefs : List String, pollAllAvailable st hrefs = true → pollFetches st hrefs = hrefs := by
  intro hrefs
  induction hrefs with
  | nil => intro _; rfl
  | cons h t ih =>
    intro hall
    simp only [pollAllAvailable, List.all_cons, Bool.and_eq_true] at hall
    simp [pollFetches, hall.1, ih (by simp [pollAllAvailable, hall.2])]

theorem all_available_go_step (status : Nat → String → Option String) (hrefs : List String)
    (round limit : Nat) :
    all_available_go status hrefs round (limit + 1) =
      if pollAllAvailable (status round) hrefs then
        (Event.sleepEv :: (pollFetches (status round) hrefs).map Event.getReq,
          Except.ok (round + 1))
      else
        ((Event.sleepEv :: (pollFetches (status round) hrefs).map Event.getReq)
            ++ (all_available_go status hrefs (round + 1) limit).1,
          (all_available_go status hrefs (round + 1) limit).2) := by
  simp only [all_available_go]

theorem all_available_first_round (status : Nat → String → Option String) (hrefs : List String)
    (h : pollAllAvailable (status 0) hrefs = true) :
    all_available status hrefs = (Event.sleepEv :: hrefs.map Event.getReq, Except.ok 1) := by
  have h120 : all_available status hrefs = all_available_go status hrefs 0 (119 + 1) := rfl
  rw [h120, all_available_go_step, if_pos h, pollFetches_of_all (status 0) hrefs h]

theorem all_available_of_available (st : String → Option String) (h : String)
    (hs : st h = some "AVAILABLE") :
    all_available (fun _ => st) [h] = ([Event.sleepEv, Event.getReq h], Except.ok 1) := by
  have hp : pollAllAvailable st [h] = true := by
    simp [pollAllAvailable, pollStatus, hs]
  simpa using all_available_first_round (fun _ => st) [h] hp

theorem countSleeps_map_getReq (us : List String) : countSleeps (us.map Event.getReq) = 0 := by
  induction us with
  | nil => rfl
  | cons u us ih => simpa [countSleeps] using ih

/-- C2: `all_available` raises `Timeout` exactly when all of its 120 polling
rounds see some member of the input set not reporting available (never after
fewer rounds: on timeout exactly 120 rounds, one sleep each, were performed),
and it performs at least one polling round — fetching the state of every href
once — even when every member is already available on the first round. -/
theorem awaitAvailable_attempt_budget (status : Nat → String → Option String)
    (hrefs : List String) :
    ((all_available status hrefs).2 = Except.error Err.timeout ↔
        ∀ r < 120, pollAllAvailable (status r) hrefs = false)
      ∧ ((all_available status hrefs).2 = Except.error Err.timeout →
          countSleeps (all_available status hrefs).1 = 120)
      ∧ (∀ n, (all_available status hrefs).2 = Except.ok n → 1 ≤ n)
      ∧ (pollAllAvailable (status 0) hrefs = true →
          all_available status hrefs
            = (Event.sleepEv :: hrefs.map Event.getReq, Except.ok 1)) := by
  refine ⟨all_available_timeout_iff status hrefs, ?_, ?_, ?_⟩
  · exact all_available_go_timeout_sleeps status hrefs 120 0
  · intro n h
    have := all_available_go_ok_lt status hrefs 120 0 n h
    omega
  · intro h
    exact all_available_first_round status hrefs h

/-- C2 witness: on an already-available singleton set the barrier performs
exactly one polling round with one state fetch. -/
theorem awaitAvailable_attempt_budget_witness :
    all_available (fun _ _ => some "AVAILABLE") ["h"]
      = (Event.sleepEv :: ["h"].map Event.getReq, Except.ok 1) :=
  (awaitAvailable_attempt_budget (fun _ _ => some "AVAILABLE") ["h"]).2.2.2 (by decide)

/-- C3 counterexample: on a href sequence reporting busy, busy, available the
barrier returns after three poll rounds but THREE sleep intervals, not two —
the loop sleeps before every poll, including the first. -/
theorem barrier_two_sleeps_counterexample :
    (all_available busyBusyAvailable ["h"]).2 = Except.ok 3 ∧
      countSleeps (all_available busyBusyAvailable ["h"]).1 ≠ 2 ∧
      countSleeps (all_available busyBusyAvailable ["h"]).1 = 3 := by
  decide

/-- C3 (amended): for any input set reporting not-all-available on the first
two polling rounds and all-available on the third, `all_available` returns
successfully after exactly three poll rounds and exactly three sleep
intervals. -/
theorem barrier_three_polls_three_sleeps (status : Nat → String → Option String)
    (hrefs : List String)
    (h0 : pollAllAvailable (status 0) hrefs = false)
    (h1 : pollAllAvailable (status 1) hrefs = false)
    (h2 : pollAllAvailable (status 2) hrefs = true) :
    (all_available status hrefs).2 = Except.ok 3 ∧
      countSleeps (all_available status hrefs).1 = 3 := by
  have e : all_available status hrefs = all_available_go status hrefs 0 (119 + 1) := rfl
  rw [e, all_available_go_step, if_neg (by simp [h0])]
  rw [show (119 : Nat) = 118 + 1 from rfl, all_available_go_step, if_neg (by simp [h1])]
  rw [show (118 : Nat) = 117 + 1 from rfl, all_available_go_step, if_pos h2]
  constructor
  · rfl
  · simp [countSleeps_append, countSleeps, countSleeps_map_getReq]

/-- C3 witness: a concrete two-element set reporting busy, busy, available. -/
theorem barrier_three_polls_three_sleeps_witness :
    (all_available busyBusyAvailable ["h", "g"]).2 = Except.ok 3 ∧
      countSleeps (all_available busyBusyAvailable ["h", "g"]).1 = 3 :=
  barrier_three_polls_three_sleeps busyBusyAvailable ["h", "g"]
    (by decide) (by decide) (by decide)

/-! ### Delete / detach lemmas (C1) -/

theorem detach_single_ok (ctx : Ctx) (files : JsonFiles) (jf : JsonFile)
    (href server_name name : String) (ty : CompType)
    (Ed Ee Es : List Event) (dchref shref : String)
    (hdc : name_to_href_scan ctx.env.datacenterName ctx.remote.datacenters = (Ed, some dchref))
    (hex : server_exists_scan server_name ctx.remote.servers = (Ee, true))
    (hjf : files.lookup (server_name ++ ".json") = some jf)
    (hmem : name ∈ detachComponentNames jf ty)
    (hhr : name_to_href_scan server_name ctx.remote.servers = (Es, some shref))
    (hst : ctx.remote.state shref = some "AVAILABLE") :
    (detach_single ctx files href server_name name ty).2 = Except.ok ()
      ∧ mutEvents (detach_single ctx files href server_name name ty).1
          = [Event.deleteReq href] := by
  have hEd : mutEvents Ed = [] := by
    have := mutEvents_of_passive _
      (passive_name_to_href_scan ctx.env.datacenterName ctx.remote.datacenters)
    rw [hdc] at this
    exact this
  have hEe : mutEvents Ee = [] := by
    have := mutEvents_of_passive _
      (passive_server_exists_scan server_name ctx.remote.servers)
    rw [hex] at this
    exact this
  have hEs : mutEvents Es = [] := by
    have := mutEvents_of_passive _
      (passive_name_to_href_scan server_name ctx.remote.servers)
    rw [hhr] at this
    exact this
  have hbar := all_available_of_available ctx.remote.state shref hst
  simp only [detach_single, name_to_href, server_exists, hdc, hex, hjf, hmem, hbar,
    if_true, Except.map]
  rw [hhr]
  simp only [hbar]
  constructor
  · trivial
  · simp [mutEvents, mutEvents_append, hEd, hEe, hEs]

theorem detach_items_ok (ctx : Ctx) (files : JsonFiles) (jf : JsonFile)
    (server_name : String) (ty : CompType)
    (Ed Ee Es : List Event) (dchref shref : String)
    (hdc : name_to_href_scan ctx.env.datacenterName ctx.remote.datacenters = (Ed, some dchref))
    (hex : server_exists_scan server_name ctx.remote.servers = (Ee, true))
    (hjf : files.lookup (server_name ++ ".json") = some jf)
    (hhr : name_to_href_scan server_name ctx.remote.servers = (Es, some shref))
    (hst : ctx.remote.state shref = some "AVAILABLE") :
    ∀ items : List RemoteItem,
      (∀ it ∈ items, it.name ∈ detachComponentNames jf ty) →
      (detach_items ctx files server_name ty items).2 = Except.ok ()
        ∧ mutEvents (detach_items ctx files server_name ty items).1
            = items.map (fun it => Event.deleteReq it.href) := by
  intro items
  induction items with
  | nil => intro _; exact ⟨rfl, rfl⟩
  | cons it rest ih =>
    intro hall
    have h1 := detach_single_ok ctx files jf it.href server_name it.name ty Ed Ee Es
      dchref shref hdc hex hjf (hall it (by simp)) hhr hst
    have h2 := ih (fun x hx => hall x (by simp [hx]))
    simp only [detach_items]
    rcases hds : detach_single ctx files it.href server_name it.name ty with ⟨E1, r1⟩
    rw [hds] at h1
    have hr1 : r1 = Except.ok () := h1.1
    have hm1 : mutEvents E1 = [Event.deleteReq it.href] := h1.2
    subst hr1
    rcases hdi : detach_items ctx files server_name ty rest with ⟨E2, r2⟩
    rw [hdi] at h2
    have hr2 : r2 = Except.ok () := h2.1
    have hm2 : mutEvents E2 = rest.map (fun x => Event.deleteReq x.href) := h2.2
    subst hr2
    refine ⟨rfl, ?_⟩
    simp [mutEvents, mutEvents_append, hm1, hm2]

theorem detach_ok (ctx : Ctx) (files : JsonFiles) (jf : JsonFile)
    (server_name : String) (ty : CompType)
    (Ed Ee Es : List Event) (dchref shref : String)
    (hname : ctx.remote.serverNameAt shref = some server_name)
    (hdc : name_to_href_scan ctx.env.datacenterName ctx.remote.datacenters = (Ed, some dchref))
    (hex : server_exists_scan server_name ctx.remote.servers = (Ee, true))
    (hjf : files.lookup (server_name ++ ".json") = some jf)
    (hhr : name_to_href_scan server_name ctx.remote.servers = (Es, some shref))
    (hst : ctx.remote.state shref = some "AVAILABLE")
    (hall : ∀ it ∈ ctx.remote.attached shref ty, it.name ∈ detachComponentNames jf ty) :
    (detach ctx files ty shref).2 = Except.ok ()
      ∧ mutEvents (detach ctx files ty shref).1
          = (ctx.remote.attached shref ty).map (fun it => Event.deleteReq it.href) := by
  have h := detach_items_ok ctx files jf server_name ty Ed Ee Es dchref shref
    hdc hex hjf hhr hst (ctx.remote.attached shref ty) hall
  simp only [detach, hname]
  rcases hdi : detach_items ctx files server_name ty (ctx.remote.attached shref ty) with ⟨E, r⟩
  rw [hdi] at h
  have hr : r = Except.ok () := h.1
  have hm : mutEvents E = (ctx.remote.attached shref ty).map (fun it => Event.deleteReq it.href) := h.2
  subst hr
  refine ⟨rfl, ?_⟩
  simp [mutEvents, hm]

/-- C1 (amended): when every live attached NIC and volume of the server has a
name present in the declared configuration (standalone or embedded), Delete
detaches and deletes every live NIC, then every live volume, then deletes the
server itself — exactly these DELETE calls, in this order, are issued.  (The
counterexample `delete_undeclared_component_counterexample` shows the
unamended claim fails: a live component whose name is NOT declared makes the
operation abort with NotFound before deleting anything.) -/
theorem delete_detaches_declared_live_components (ctx : Ctx) (files : JsonFiles)
    (jf : JsonFile) (server_name api_url : String)
    (Ed Ee Es : List Event) (dchref shref : String)
    (hdc : name_to_href_scan ctx.env.datacenterName ctx.remote.datacenters = (Ed, some dchref))
    (hex : server_exists_scan server_name ctx.remote.servers = (Ee, true))
    (hhr : name_to_href_scan server_name ctx.remote.servers = (Es, some shref))
    (hst : ctx.remote.state shref = some "AVAILABLE")
    (hname : ctx.remote.serverNameAt shref = some server_name)
    (hjf : files.lookup (server_name ++ ".json") = some jf)
    (hnics : ∀ it ∈ ctx.remote.attached shref CompType.nics,
      it.name ∈ detachComponentNames jf CompType.nics)
    (hvols : ∀ it ∈ ctx.remote.attached shref CompType.volumes,
      it.name ∈ detachComponentNames jf CompType.volumes) :
    (delete ctx files server_name api_url).2 = Except.ok ()
      ∧ mutEvents (delete ctx files server_name api_url).1
          = (ctx.remote.attached shref CompType.nics).map (fun it => Event.deleteReq it.href)
            ++ (ctx.remote.attached shref CompType.volumes).map (fun it => Event.deleteReq it.href)
            ++ [Event.deleteReq shref] := by
  have hEe : mutEvents Ee = [] := by
    have := mutEvents_of_passive _ (passive_server_exists_scan server_name ctx.remote.servers)
    rw [hex] at this
    exact this
  have hEs : mutEvents Es = [] := by
    have := mutEvents_of_passive _ (passive_name_to_href_scan server_name ctx.remote.servers)
    rw [hhr] at this
    exact this
  have hbar := all_available_of_available ctx.remote.state shref hst
  have hn := detach_ok ctx files jf server_name CompType.nics Ed Ee Es dchref shref
    hname hdc hex hjf hhr hst hnics
  have hv := detach_ok ctx files jf server_name CompType.volumes Ed Ee Es dchref shref
    hname hdc hex hjf hhr hst hvols
  simp only [delete, name_to_href, server_exists, hex, if_true, hbar, delete_single]
  rw [hhr]
  simp only [hbar]
  rcases hdn : detach ctx files CompType.nics shref with ⟨En, rn⟩
  rw [hdn] at hn
  have hrn : rn = Except.ok () := hn.1
  have hmn : mutEvents En
      = (ctx.remote.attached shref CompType.nics).map (fun it => Event.deleteReq it.href) := hn.2
  subst hrn
  rcases hdv : detach ctx files CompType.volumes shref with ⟨Ev, rv⟩
  rw [hdv] at hv
  have hrv : rv = Except.ok () := hv.1
  have hmv : mutEvents Ev
      = (ctx.remote.attached shref CompType.volumes).map (fun it => Event.deleteReq it.href) := hv.2
  subst hrv
  refine ⟨rfl, ?_⟩
  simp [mutEvents, mutEvents_append, hEe, hEs, hmn, hmv]

/-- C1 counterexample: a server whose live attached NIC is named `rogue`,
absent from the declared configuration.  The claim says Delete also detaches
and deletes such a component and then the server; instead `detach_single`
aborts with NotFound and NO delete call at all is issued — neither the rogue
NIC nor the server is deleted. -/
theorem delete_undeclared_component_counterexample :
    (delete ctxC1 filesC1 "web1" "U").2 = Except.error (Err.notFound "rogue")
      ∧ mutEvents (delete ctxC1 filesC1 "web1" "U").1 = [] := by
  decide

/-- C1 witness: with a live NIC `n1` and volume `v1`, both declared, Delete
issues exactly their DELETEs (NICs first) and then the server DELETE. -/
theorem delete_detaches_declared_live_components_witness :
    (delete ctxC1w filesC1w "web1" "U").2 = Except.ok ()
      ∧ mutEvents (delete ctxC1w filesC1w "web1" "U").1
          = (ctxC1w.remote.attached "S" CompType.nics).map (fun it => Event.deleteReq it.href)
            ++ (ctxC1w.remote.attached "S" CompType.volumes).map (fun it => Event.deleteReq it.href)
            ++ [Event.deleteReq "S"] :=
  delete_detaches_declared_live_components ctxC1w filesC1w jfC1w "web1" "U"
    [Event.getReq "D"] [Event.getReq "S"] [Event.getReq "S"] "D" "S"
    (by decide) (by decide) (by decide) (by decide) (by decide) (by decide)
    (by decide) (by decide)

/-! ### Create guard (C9) -/

/-- C9: `create` invoked for a server name that already exists remotely fails
with AlreadyExists; its trace is exactly the read-only existence-check GETs,
so no POST, PATCH or DELETE is issued. -/
theorem create_alreadyExists_no_mutation (ctx : Ctx) (files : JsonFiles)
    (server_name api_url : String) (rng : Nat → Fin 32 → Fin 62) (k : Nat)
    (hex : (server_exists server_name ctx.remote.servers api_url).2 = true) :
    (create ctx files server_name api_url rng k).2.2.2
        = Except.error (Err.alreadyExists server_name)
      ∧ mutEvents (create ctx files server_name api_url rng k).1 = [] := by
  have hmut : mutEvents (server_exists server_name ctx.remote.servers api_url).1 = [] :=
    mutEvents_of_passive _ (passive_server_exists server_name api_url ctx.remote.servers)
  simp only [create]
  rcases hse : server_exists server_name ctx.remote.servers api_url with ⟨Ee, b⟩
  rw [hse] at hex hmut
  have hb : b = true := hex
  subst hb
  exact ⟨rfl, hmut⟩

/-- C9 witness: creating `web1`, which exists remotely, aborts mutation-free. -/
theorem create_alreadyExists_no_mutation_witness :
    (create ctxC4 filesC4 "web1" "U" rng0 0).2.2.2
        = Except.error (Err.alreadyExists "web1")
      ∧ mutEvents (create ctxC4 filesC4 "web1" "U" rng0 0).1 = [] :=
  create_alreadyExists_no_mutation ctxC4 filesC4 "web1" "U" rng0 0 (by decide)

/-! ### Attach vs detach guard (C5) -/

/-- C5 counterexample: volume `v1` declared only among the embedded entities.
The attach guard rejects it with NotFound while the detach guard accepts it
and the detach succeeds — the two guards do NOT reject under exactly the same
conditions. -/
theorem attach_detach_guard_counterexample :
    (attach_single ctxC5 filesC5 "S" "web1" "v1" CompType.volumes rng0 0).2.2.2
        = Except.error (Err.notFound "v1")
      ∧ (detach_single ctxC5 filesC5 "V1" "web1" "v1" CompType.volumes).2
        = Except.ok () := by
  decide

/-- C5 (amended): the attach guard consults only the standalone declared list
(`attachComponentNames`) while the detach guard consults the standalone list
extended by the embedded entity items (`detachComponentNames`); so every
component name the attach guard accepts, the detach guard also accepts — the
converse fails for names declared only among the embedded entities. -/
theorem attach_guard_subset_detach_guard (jf : JsonFile) (ty : CompType) (name : String)
    (h : name ∈ attachComponentNames jf ty) : name ∈ detachComponentNames jf ty := by
  simp only [attachComponentNames] at h
  simp only [detachComponentNames, List.map_append]
  exact List.mem_append_left _ h

/-- C5 witness: `v1` of the standalone list is accepted by both guards. -/
theorem attach_guard_subset_detach_guard_witness :
    "v1" ∈ attachComponentNames jfC1w CompType.volumes
      ∧ "v1" ∈ detachComponentNames jfC1w CompType.volumes :=
  ⟨by decide, attach_guard_subset_detach_guard jfC1w CompType.volumes "v1" (by decide)⟩

/-! ### Double declaration duplicates firewall-rule creation (C10) -/

/-- C10: with NIC `nic1` declared in BOTH the standalone list and the
embedded entities, each occurrence carrying the same single firewall rule
`r1`, `fwrules_create` succeeds and issues FOUR creation POSTs for that one
declared rule — one per pair of (outer occurrence, inner matched occurrence)
— rather than exactly one. -/
theorem fwrules_double_declaration_four_posts :
    (fwrules_create ctxC10 filesC10 "web1").2 = Except.ok ()
      ∧ fwPostCount (fwrules_create ctxC10 filesC10 "web1").1 = 4
      ∧ (jfC10.nics ++ jfC10.server.entityNics).map
            (fun n => (n.firewallrules.getD []).map (fun r => r.properties.name))
          = [["r1"], ["r1"]] := by
  decide

/-! ### Firewall-rule duplicate detection (C7) -/

theorem fwPostsFor_of_no_tag (X : String) :
    ∀ t : List Event,
      (∀ e ∈ t, isPassive e = true ∨ ∃ u n r, e = Event.postFw u n r ∧ n ≠ X) →
      fwPostsFor X t = [] := by
  intro t ht
  induction t with
  | nil => rfl
  | cons e s ih =>
    have he := ht e (List.mem_cons_self e s)
    have hs : ∀ x ∈ s, isPassive x = true ∨ ∃ u n r, x = Event.postFw u n r ∧ n ≠ X :=
      fun x hx => ht x (List.mem_cons_of_mem e hx)
    cases e with
    | postFw u n r =>
      rcases he with he | ⟨u2, n2, r2, he, hn2⟩
      · simp [isPassive] at he
      · have : n = n2 := by
          injection he with h1 h2 h3
        simp [fwPostsFor, this, hn2, ih hs]
    | getReq u => simp [fwPostsFor, ih hs]
    | postServer u p => simp [fwPostsFor, ih hs]
    | postComp u p => simp [fwPostsFor, ih hs]
    | patchBootVolume u i => simp [fwPostsFor, ih hs]
    | deleteReq u => simp [fwPostsFor, ih hs]
    | sleepEv => simp [fwPostsFor, ih hs]

theorem post_loop_events (ctx : Ctx) (sn nn n us : String) :
    ∀ rules : List FwRule, ∀ e ∈ (fwrules_post_loop ctx sn nn n us rules).1,
      isPassive e = true ∨ ∃ u r, e = Event.postFw u nn r := by
  intro rules
  induction rules with
  | nil => intro e he; simp [fwrules_post_loop] at he
  | cons rule rest ih =>
    intro e he
    simp only [fwrules_post_loop] at he
    by_cases hr : (rule.properties.name == n) = true
    · rw [if_pos hr] at he
      have hp1 := passive_name_to_href sn us ctx.remote.servers
      rcases h1 : name_to_href sn ctx.remote.servers us with ⟨E1, r1⟩
      rw [h1] at he hp1
      cases r1 with
      | error err =>
        simp at he
        exact Or.inl (hp1 e he)
      | ok shref =>
        simp only [List.append_assoc] at he
        have hp2 := passive_name_to_href nn (shref ++ "/nics")
          (ctx.remote.attached shref CompType.nics)
        rcases h2 : name_to_href nn (ctx.remote.attached shref CompType.nics)
            (shref ++ "/nics") with ⟨E2, r2⟩
        rw [h2] at he hp2
        cases r2 with
        | error err =>
          simp at he
          rcases he with he | he
          · exact Or.inl (hp1 e he)
          · exact Or.inl (hp2 e he)
        | ok nhref =>
          simp only [List.append_assoc] at he
          have hp5 := passive_all_available (fun _ => ctx.remote.state) [shref]
          rcases h5 : all_available (fun _ => ctx.remote.state) [shref] with ⟨E5, r5⟩
          rw [h5] at he hp5
          cases r5 with
          | error err =>
            simp at he
            rcases he with he | he | he | he | he
            · exact Or.inl (hp1 e he)
            · exact Or.inl (hp2 e he)
            · exact Or.inr ⟨_, _, he⟩
            · exact Or.inl (hp1 e he)
            · exact Or.inl (hp5 e he)
          | ok m =>
            rcases h6 : fwrules_post_loop ctx sn nn n us rest with ⟨E6, r6⟩
            rw [h6] at he
            have ih2 := ih
            rw [h6] at ih2
            simp at he
            rcases he with he | he | he | he | he | he
            · exact Or.inl (hp1 e he)
            · exact Or.inl (hp2 e he)
            · exact Or.inr ⟨_, _, he⟩
            · exact Or.inl (hp1 e he)
            · exact Or.inl (hp5 e he)
            · exact ih2 e he
    · rw [if_neg hr] at he
      exact ih e he

theorem fwPostsFor_post_loop (ctx : Ctx) (sn nn n us X : String) (hnn : nn ≠ X)
    (rules : List FwRule) :
    fwPostsFor X (fwrules_post_loop ctx sn nn n us rules).1 = [] := by
  apply fwPostsFor_of_no_tag
  intro e he
  rcases post_loop_events ctx sn nn n us rules e he with h | ⟨u, r, h⟩
  · exact Or.inl h
  · exact Or.inr ⟨u, nn, r, h, hnn⟩

theorem fwPostsFor_nic_scan (ctx : Ctx) (n sn nn us X : String) (rules0 : List FwRule)
    (hdup : (rules0.map (fun r => r.properties.name)).dedup.length ≠ rules0.length) :
    ∀ nics : List Component,
      (∀ nic ∈ nics, nic.properties.name = X → nic.firewallrules = some rules0) →
      fwPostsFor X (fwrules_nic_scan ctx n sn nn us nics).1 = [] := by
  intro nics
  induction nics with
  | nil => intro _; rfl
  | cons nic rest ih =>
    intro hW
    have hWr : ∀ x ∈ rest, x.properties.name = X → x.firewallrules = some rules0 :=
      fun x hx => hW x (List.mem_cons_of_mem nic hx)
    simp only [fwrules_nic_scan]
    by_cases hm : (nic.properties.name == nn) = true
    · rw [if_pos hm]
      cases hfw : nic.firewallrules with
      | none => simp [fwPostsFor]
      | some rules =>
        by_cases hd : (rules.map (fun r => r.properties.name)).dedup.length ≠ rules.length
        · simp [hd, fwPostsFor]
        · have hnnX : nn ≠ X := by
            intro hEq
            have hnic : nic.properties.name = X := by
              have := eq_of_beq hm
              rw [this, hEq]
            have hsome := hW nic (List.mem_cons_self nic rest) hnic
            rw [hfw] at hsome
            have hrules : rules = rules0 := by injection hsome
            rw [hrules] at hd
            exact hd hdup
          have hpl := fwPostsFor_post_loop ctx sn nn n us X hnnX rules
          rcases h1 : fwrules_post_loop ctx sn nn n us rules with ⟨E1, r1⟩
          rw [h1] at hpl
          have ih2 := ih hWr
          rcases h2 : fwrules_nic_scan ctx n sn nn us rest with ⟨E2, r2⟩
          rw [h2] at ih2
          simp only [hd, if_false, h1, h2]
          cases r1 with
          | error err => simpa using hpl
          | ok m => simp [fwPostsFor_append, hpl, ih2]
    · rw [if_neg hm]
      exact ih hWr

theorem fwrules_nic_scan_duplicate (ctx : Ctx) (n sn us X : String) (rules0 : List FwRule)
    (hdup : (rules0.map (fun r => r.properties.name)).dedup.length ≠ rules0.length) :
    ∀ nics : List Component,
      (∀ nic ∈ nics, nic.properties.name = X → nic.firewallrules = some rules0) →
      (∃ nic ∈ nics, nic.properties.name = X) →
      fwrules_nic_scan ctx n sn X us nics = ([], Except.error (Err.duplicateName X)) := by
  intro nics
  induction nics with
  | nil =>
    intro _ hocc
    simp at hocc
  | cons nic rest ih =>
    intro hW hocc
    simp only [fwrules_nic_scan]
    by_cases hm : (nic.properties.name == X) = true
    · have hfw := hW nic (List.mem_cons_self nic rest) (eq_of_beq hm)
      simp [hm, hfw, hdup]
    · rw [if_neg hm]
      apply ih (fun x hx => hW x (List.mem_cons_of_mem nic hx))
      rcases hocc with ⟨x, hx, hxn⟩
      rcases List.mem_cons.mp hx with hh | hh
      · subst hh
        exact absurd (by simp [hxn]) hm
      · exact ⟨x, hh, hxn⟩

theorem fwrules_create_single_duplicate (ctx : Ctx) (files : JsonFiles) (jf : JsonFile)
    (n sn X : String) (rules0 : List FwRule) (Ed Ee : List Event) (dchref : String)
    (hdc : name_to_href_scan ctx.env.datacenterName ctx.remote.datacenters = (Ed, some dchref))
    (hex : server_exists_scan sn ctx.remote.servers = (Ee, true))
    (hjf : files.lookup (sn ++ ".json") = some jf)
    (hW : ∀ nic ∈ jf.nics ++ jf.server.entityNics,
      nic.properties.name = X → nic.firewallrules = some rules0)
    (hocc : ∃ nic ∈ jf.nics ++ jf.server.entityNics, nic.properties.name = X)
    (hdup : (rules0.map (fun r => r.properties.name)).dedup.length ≠ rules0.length) :
    (fwrules_create_single ctx files n sn X).2 = Except.error (Err.duplicateName X)
      ∧ fwPostCount (fwrules_create_single ctx files n sn X).1 = 0 := by
  have hscan := fwrules_nic_scan_duplicate ctx n sn (dchref ++ "/servers") X rules0 hdup
    (jf.nics ++ jf.server.entityNics) hW hocc
  have hcEd : fwPostCount Ed = 0 := by
    have := fwPostCount_of_passive _
      (passive_name_to_href_scan ctx.env.datacenterName ctx.remote.datacenters)
    rw [hdc] at this
    exact this
  have hcEe : fwPostCount Ee = 0 := by
    have := fwPostCount_of_passive _ (passive_server_exists_scan sn ctx.remote.servers)
    rw [hex] at this
    exact this
  simp only [fwrules_create_single, name_to_href, server_exists, hdc, hex, hjf, if_true, hscan]
  constructor
  · trivial
  · simp [fwPostCount, fwPostCount_append, hcEd, hcEe]

theorem fwPostsFor_fwrules_create_single (ctx : Ctx) (files : JsonFiles) (jf : JsonFile)
    (n sn nn X : String) (rules0 : List FwRule)
    (hjf : files.lookup (sn ++ ".json") = some jf)
    (hW : ∀ nic ∈ jf.nics ++ jf.server.entityNics,
      nic.properties.name = X → nic.firewallrules = some rules0)
    (hdup : (rules0.map (fun r => r.properties.name)).dedup.length ≠ rules0.length) :
    fwPostsFor X (fwrules_create_single ctx files n sn nn).1 = [] := by
  have hp1 := passive_name_to_href ctx.env.datacenterName URL_DATACENTERS ctx.remote.datacenters
  rcases h1 : name_to_href ctx.env.datacenterName ctx.remote.datacenters URL_DATACENTERS
    with ⟨E1, r1⟩
  rw [h1] at hp1
  have hE1 : fwPostsFor X E1 = [] := fwPostsFor_of_passive X E1 hp1
  simp only [fwrules_create_single, h1]
  cases r1 with
  | error err => simpa using hE1
  | ok dchref =>
    rcases h2 : server_exists sn ctx.remote.servers (dchref ++ "/servers") with ⟨E2, b⟩
    have hp2 := passive_server_exists sn (dchref ++ "/servers") ctx.remote.servers
    rw [h2] at hp2
    have hE2 : fwPostsFor X E2 = [] := fwPostsFor_of_passive X E2 hp2
    cases b with
    | false => simp [h2, fwPostsFor_append, fwPostsFor, hE1, hE2]
    | true =>
      have hscan := fwPostsFor_nic_scan ctx n sn nn (dchref ++ "/servers") X rules0 hdup
        (jf.nics ++ jf.server.entityNics) hW
      rcases h3 : fwrules_nic_scan ctx n sn nn (dchref ++ "/servers")
          (jf.nics ++ jf.server.entityNics) with ⟨E3, r3⟩
      rw [h3] at hscan
      simp [h2, hjf, h3, fwPostsFor_append, fwPostsFor, hE1, hE2, hscan]

theorem fwPostsFor_rules_loop (ctx : Ctx) (files : JsonFiles) (jf : JsonFile)
    (sn nn X : String) (rules0 : List FwRule)
    (hjf : files.lookup (sn ++ ".json") = some jf)
    (hW : ∀ nic ∈ jf.nics ++ jf.server.entityNics,
      nic.properties.name = X → nic.firewallrules = some rules0)
    (hdup : (rules0.map (fun r => r.properties.name)).dedup.length ≠ rules0.length) :
    ∀ rules : List FwRule, fwPostsFor X (fwrules_rules_loop ctx files sn nn rules).1 = [] := by
  intro rules
  induction rules with
  | nil => rfl
  | cons r rest ih =>
    have h1full := fwPostsFor_fwrules_create_single ctx files jf r.properties.name sn nn X
      rules0 hjf hW hdup
    simp only [fwrules_rules_loop]
    rcases h1 : fwrules_create_single ctx files r.properties.name sn nn with ⟨E1, r1⟩
    rw [h1] at h1full
    cases r1 with
    | error e => exact h1full
    | ok _ =>
      rcases h2 : fwrules_rules_loop ctx files sn nn rest with ⟨E2, r2⟩
      rw [h2] at ih
      show fwPostsFor X (E1 ++ E2) = []
      simp [fwPostsFor_append, h1full, ih]

theorem fwPostsFor_nics_loop (ctx : Ctx) (files : JsonFiles) (jf : JsonFile)
    (sn X : String) (rules0 : List FwRule)
    (hjf : files.lookup (sn ++ ".json") = some jf)
    (hW : ∀ nic ∈ jf.nics ++ jf.server.entityNics,
      nic.properties.name = X → nic.firewallrules = some rules0)
    (hdup : (rules0.map (fun r => r.properties.name)).dedup.length ≠ rules0.length) :
    ∀ nics2 : List Component, fwPostsFor X (fwrules_nics_loop ctx files sn nics2).1 = [] := by
  intro nics2
  induction nics2 with
  | nil => rfl
  | cons nic rest ih =>
    simp only [fwrules_nics_loop]
    cases hfw : nic.firewallrules with
    | none => exact ih
    | some rules =>
      show fwPostsFor X
          (match (fwrules_rules_loop ctx files sn nic.properties.name rules).2 with
            | Except.error e =>
              ((fwrules_rules_loop ctx files sn nic.properties.name rules).1, Except.error e)
            | Except.ok _ =>
              ((fwrules_rules_loop ctx files sn nic.properties.name rules).1
                  ++ (fwrules_nics_loop ctx files sn rest).1,
                (fwrules_nics_loop ctx files sn rest).2)).1 = []
      have h1full := fwPostsFor_rules_loop ctx files jf sn nic.properties.name X rules0
        hjf hW hdup rules
      rcases h1 : fwrules_rules_loop ctx files sn nic.properties.name rules with ⟨E1, r1⟩
      rw [h1] at h1full
      cases r1 with
      | error e => exact h1full
      | ok _ =>
        rcases h2 : fwrules_nics_loop ctx files sn rest with ⟨E2, r2⟩
        rw [h2] at ih
        show fwPostsFor X (E1 ++ E2) = []
        simp [fwPostsFor_append, h1full, ih]

theorem fwrules_rules_loop_error_head (ctx : Ctx) (files : JsonFiles) (jf : JsonFile)
    (sn X : String) (rules0 : List FwRule) (Ed Ee : List Event) (dchref : String)
    (hdc : name_to_href_scan ctx.env.datacenterName ctx.remote.datacenters = (Ed, some dchref))
    (hex : server_exists_scan sn ctx.remote.servers = (Ee, true))
    (hjf : files.lookup (sn ++ ".json") = some jf)
    (hW : ∀ nic ∈ jf.nics ++ jf.server.entityNics,
      nic.properties.name = X → nic.firewallrules = some rules0)
    (hocc : ∃ nic ∈ jf.nics ++ jf.server.entityNics, nic.properties.name = X)
    (hdup : (rules0.map (fun r => r.properties.name)).dedup.length ≠ rules0.length)
    (r : FwRule) (rest : List FwRule) :
    (fwrules_rules_loop ctx files sn X (r :: rest)).2
      = Except.error (Err.duplicateName X) := by
  have h1full := fwrules_create_single_duplicate ctx files jf r.properties.name sn X rules0
    Ed Ee dchref hdc hex hjf hW hocc hdup
  simp only [fwrules_rules_loop]
  rcases h1 : fwrules_create_single ctx files r.properties.name sn X with ⟨E1, r1⟩
  rw [h1] at h1full
  have hr1 : r1 = Except.error (Err.duplicateName X) := h1full.1
  subst hr1
  rfl

theorem fwrules_nics_loop_not_ok (ctx : Ctx) (files : JsonFiles) (jf : JsonFile)
    (sn X : String) (rules0 : List FwRule) (Ed Ee : List Event) (dchref : String)
    (hdc : name_to_href_scan ctx.env.datacenterName ctx.remote.datacenters = (Ed, some dchref))
    (hex : server_exists_scan sn ctx.remote.servers = (Ee, true))
    (hjf : files.lookup (sn ++ ".json") = some jf)
    (hW : ∀ nic ∈ jf.nics ++ jf.server.entityNics,
      nic.properties.name = X → nic.firewallrules = some rules0)
    (hdup : (rules0.map (fun r => r.properties.name)).dedup.length ≠ rules0.length) :
    ∀ nics2 : List Component,
      (∀ nic ∈ nics2, nic ∈ jf.nics ++ jf.server.entityNics) →
      (∃ nic ∈ nics2, nic.properties.name = X) →
      (fwrules_nics_loop ctx files sn nics2).2 ≠ Except.ok () := by
  intro nics2
  induction nics2 with
  | nil =>
    intro _ hocc
    simp at hocc
  | cons nic rest ih =>
    intro hsub hocc
    have hsubr : ∀ x ∈ rest, x ∈ jf.nics ++ jf.server.entityNics :=
      fun x hx => hsub x (List.mem_cons_of_mem nic hx)
    simp only [fwrules_nics_loop]
    by_cases hX : nic.properties.name = X
    · have hnicmem := hsub nic (List.mem_cons_self nic rest)
      have hfw : nic.firewallrules = some rules0 := hW nic hnicmem hX
      have hoccfull : ∃ x ∈ jf.nics ++ jf.server.entityNics, x.properties.name = X :=
        ⟨nic, hnicmem, hX⟩
      have hne : rules0 ≠ [] := by
        intro h0
        rw [h0] at hdup
        simp at hdup
      rcases hr0 : rules0 with _ | ⟨r0, rest0⟩
      · exact absurd hr0 hne
      · rw [hfw, hr0, hX]
        show (match (fwrules_rules_loop ctx files sn X (r0 :: rest0)).2 with
            | Except.error e =>
              ((fwrules_rules_loop ctx files sn X (r0 :: rest0)).1, Except.error e)
            | Except.ok _ =>
              ((fwrules_rules_loop ctx files sn X (r0 :: rest0)).1
                  ++ (fwrules_nics_loop ctx files sn rest).1,
                (fwrules_nics_loop ctx files sn rest).2)).2 ≠ Except.ok ()
        have herr := fwrules_rules_loop_error_head ctx files jf sn X rules0 Ed Ee dchref
          hdc hex hjf hW hoccfull hdup r0 rest0
        rcases h1 : fwrules_rules_loop ctx files sn X (r0 :: rest0) with ⟨E1, r1⟩
        rw [h1] at herr
        have hr1 : r1 = Except.error (Err.duplicateName X) := herr
        subst hr1
        simp
    · cases hfw : nic.firewallrules with
      | none =>
        apply ih hsubr
        rcases hocc with ⟨x, hx, hxn⟩
        rcases List.mem_cons.mp hx with hh | hh
        · subst hh
          exact absurd hxn hX
        · exact ⟨x, hh, hxn⟩
      | some rules =>
        show (match (fwrules_rules_loop ctx files sn nic.properties.name rules).2 with
            | Except.error e =>
              ((fwrules_rules_loop ctx files sn nic.properties.name rules).1, Except.error e)
            | Except.ok _ =>
              ((fwrules_rules_loop ctx files sn nic.properties.name rules).1
                  ++ (fwrules_nics_loop ctx files sn rest).1,
                (fwrules_nics_loop ctx files sn rest).2)).2 ≠ Except.ok ()
        rcases h1 : fwrules_rules_loop ctx files sn nic.properties.name rules with ⟨E1, r1⟩
        cases r1 with
        | error e => simp
        | ok _ =>
          have ihr : (fwrules_nics_loop ctx files sn rest).2 ≠ Except.ok () := by
            apply ih hsubr
            rcases hocc with ⟨x, hx, hxn⟩
            rcases List.mem_cons.mp hx with hh | hh
            · subst hh
              exact absurd hxn hX
            · exact ⟨x, hh, hxn⟩
          rcases h2 : fwrules_nics_loop ctx files sn rest with ⟨E2, r2⟩
          rw [h2] at ihr
          show r2 ≠ Except.ok ()
          exact ihr

/-- C7: when the declared occurrences of NIC `X` all carry the same rule
collection `rules0` (the data model's double-declaration invariant) and
`rules0` has two rules sharing a name, (i) the firewall-rule synchronization
`fwrules_create` issues NO creation POST targeted at `X`, (ii) it does not
succeed, and (iii) every `fwrules_create_single` call for `X` fails with
DuplicateName without issuing ANY creation POST — the duplicate check fires
before any rule creation on that NIC. -/
theorem syncFirewall_duplicateName (ctx : Ctx) (files : JsonFiles) (jf : JsonFile)
    (server_name X : String) (rules0 : List FwRule) (Ed Ee : List Event) (dchref : String)
    (hdc : name_to_href_scan ctx.env.datacenterName ctx.remote.datacenters = (Ed, some dchref))
    (hex : server_exists_scan server_name ctx.remote.servers = (Ee, true))
    (hjf : files.lookup (server_name ++ ".json") = some jf)
    (hW : ∀ nic ∈ jf.nics ++ jf.server.entityNics,
      nic.properties.name = X → nic.firewallrules = some rules0)
    (hocc : ∃ nic ∈ jf.nics ++ jf.server.entityNics, nic.properties.name = X)
    (hdup : (rules0.map (fun r => r.properties.name)).dedup.length ≠ rules0.length) :
    fwPostsFor X (fwrules_create ctx files server_name).1 = []
      ∧ (fwrules_create ctx files server_name).2 ≠ Except.ok ()
      ∧ ∀ n, (fwrules_create_single ctx files n server_name X).2
            = Except.error (Err.duplicateName X)
          ∧ fwPostCount (fwrules_create_single ctx files n server_name X).1 = 0 := by
  refine ⟨?_, ?_, fun n => fwrules_create_single_duplicate ctx files jf n server_name X
    rules0 Ed Ee dchref hdc hex hjf hW hocc hdup⟩
  · simp only [fwrules_create, hjf]
    exact fwPostsFor_nics_loop ctx files jf server_name X rules0 hjf hW hdup
      (jf.nics ++ jf.server.entityNics)
  · simp only [fwrules_create, hjf]
    exact fwrules_nics_loop_not_ok ctx files jf server_name X rules0 Ed Ee dchref
      hdc hex hjf hW hdup (jf.nics ++ jf.server.entityNics) (fun x hx => hx) hocc

/-- C7 witness: NIC `nic1` with rules `[r1, r1]` yields DuplicateName and no
creation POST. -/
theorem syncFirewall_duplicateName_witness :
    fwPostsFor "nic1" (fwrules_create ctxC7 filesC7 "web1").1 = []
      ∧ (fwrules_create ctxC7 filesC7 "web1").2 ≠ Except.ok ()
      ∧ ∀ n, (fwrules_create_single ctxC7 filesC7 n "web1" "nic1").2
            = Except.error (Err.duplicateName "nic1")
          ∧ fwPostCount (fwrules_create_single ctxC7 filesC7 n "web1" "nic1").1 = 0 :=
  syncFirewall_duplicateName ctxC7 filesC7 jfC7 "web1" "nic1" [ruleR1, ruleR1]
    [Event.getReq "D"] [Event.getReq "S"] "D"
    (by decide) (by decide) (by decide) (by decide) (by decide) (by decide)

/-! ### Shared desired-state mutation (C4) -/

theorem getD_set_self (l : List Component) (i : Nat) (c : Component) (h : i < l.length) :
    (l.set i c).getD i default = c := by
  have h2 : i < (l.set i c).length := by simpa using h
  rw [List.getD_eq_getElem _ _ h2, List.getElem_set_self]

theorem lookup_setJson : ∀ (files : JsonFiles) (key : String) (v w : JsonFile),
    files.lookup key = some v → (setJson files key w).lookup key = some w := by
  intro files key v w h
  induction files with
  | nil => simp [List.lookup] at h
  | cons p rest ih =>
    rcases p with ⟨k1, v1⟩
    simp only [setJson, List.map_cons]
    by_cases hk : k1 = key
    · subst hk
      rw [if_pos rfl]
      simp [List.lookup]
    · rw [if_neg hk]
      have hbeq : (key == k1) = false := by
        simp
        exact fun hc => hk hc.symm
      simp only [List.lookup, hbeq] at h
      simp only [List.lookup, hbeq]
      exact ih h

theorem attachMutate_imagePassword (ctx : Ctx) (jf : JsonFile) (server_name name : String)
    (rng : Nat → Fin 32 → Fin 62) (k : Nat)
    (hmem : name ∈ attachComponentNames jf CompType.volumes)
    (hnull : (jf.volumes.getD ((attachComponentNames jf CompType.volumes).indexOf name)
        default).properties.imagePassword = some none) :
    ((attachMutate ctx jf server_name name CompType.volumes rng k).1.volumes.getD
        ((attachComponentNames jf CompType.volumes).indexOf name) default).properties.imagePassword
      = some (some (generateImagePassword (rng k))) := by
  have hidx : (attachComponentNames jf CompType.volumes).indexOf name < jf.volumes.length := by
    have hlen : (attachComponentNames jf CompType.volumes).length = jf.volumes.length := by
      simp [attachComponentNames, JsonFile.comps]
    rw [← hlen]
    exact List.indexOf_lt_length.mpr hmem
  simp only [attachMutate, JsonFile.comps, hnull, JsonFile.setComp]
  by_cases hud : ((server_name ++ "-boot.yaml") ∈ ctx.env.cloudConfigs ∧ pyIn "-boot" name = true)
  · simp [hud, getD_set_self, hidx]
  · simp [hud, getD_set_self, hidx]

theorem attach_single_files (ctx : Ctx) (files : JsonFiles) (jf : JsonFile)
    (href server_name name : String) (ty : CompType) (rng : Nat → Fin 32 → Fin 62) (k : Nat)
    (Ed Ee : List Event) (dchref : String)
    (hdc : name_to_href_scan ctx.env.datacenterName ctx.remote.datacenters = (Ed, some dchref))
    (hex : server_exists_scan server_name ctx.remote.servers = (Ee, true))
    (hjf : files.lookup (server_name ++ ".json") = some jf)
    (hmem : name ∈ attachComponentNames jf ty) :
    (attach_single ctx files href server_name name ty rng k).2.1
      = setJson files (server_name ++ ".json")
          (attachMutate ctx jf server_name name ty rng k).1 := by
  simp only [attach_single, name_to_href, server_exists, hdc, hex, hjf, hmem, if_true]
  rcases hmu : attachMutate ctx jf server_name name ty rng k with ⟨jf2, k1⟩
  rcases h4 : all_available (fun _ => ctx.remote.state) [href] with ⟨E4, r4⟩
  cases r4 with
  | error e => rfl
  | ok m =>
    by_cases hb : (ty = CompType.volumes ∧ pyEndsWith
        (ctx.remote.attachResp (href ++ "/" ++ ty.str)
          (attachProps ctx jf server_name name ty rng k)).name "-boot" = true)
    · rw [if_pos hb]
    · rw [if_neg hb]

/-- C4 counterexample: `attach_single` on volume `v1` (declared with a null
imagePassword) changes the shared `json_files` map — the generated password
is written through the alias into the desired-state model — refuting the
claim that every engine operation mutates entities only in local copies.
(`create_single`, by contrast, leaves the map unchanged.) -/
theorem attach_single_mutates_counterexample :
    (create_single ctxC4 filesC4 "web1" "U" rng0 0).2.1 = filesC4
      ∧ (attach_single ctxC4 filesC4 "S" "web1" "v1" CompType.volumes rng0 0).2.1 ≠ filesC4
      ∧ ((attach_single ctxC4 filesC4 "S" "web1" "v1" CompType.volumes rng0 0).2.1.lookup
            "web1.json").map
          (fun jf => (jf.volumes.getD 0 default).properties.imagePassword)
        = some (some (some (generateImagePassword (rng0 0)))) := by
  decide

/-- C4 (amended): `create_single` builds its creation payload on a deep copy
and returns the shared desired-state model `json_files` unchanged, but
`attach_single` mutates the shared model in place: after its guards pass on a
volume whose declared imagePassword is null, the operation's resulting
`json_files` entry is the `attachMutate`-rewritten file, carrying the freshly
generated image password at the component's index. -/
theorem engine_mutation_locality (ctx : Ctx) (files : JsonFiles) (jf : JsonFile)
    (href server_name name : String) (rng : Nat → Fin 32 → Fin 62) (k : Nat)
    (Ed Ee : List Event) (dchref : String)
    (hdc : name_to_href_scan ctx.env.datacenterName ctx.remote.datacenters = (Ed, some dchref))
    (hex : server_exists_scan server_name ctx.remote.servers = (Ee, true))
    (hjf : files.lookup (server_name ++ ".json") = some jf)
    (hmem : name ∈ attachComponentNames jf CompType.volumes)
    (hnull : (jf.volumes.getD ((attachComponentNames jf CompType.volumes).indexOf name)
        default).properties.imagePassword = some none) :
    (∀ (files2 : JsonFiles) (sn url : String) (rng2 : Nat → Fin 32 → Fin 62) (k2 : Nat),
        (create_single ctx files2 sn url rng2 k2).2.1 = files2)
      ∧ ((attach_single ctx files href server_name name CompType.volumes rng k).2.1.lookup
            (server_name ++ ".json"))
          = some (attachMutate ctx jf server_name name CompType.volumes rng k).1
      ∧ ((attachMutate ctx jf server_name name CompType.volumes rng k).1.volumes.getD
            ((attachComponentNames jf CompType.volumes).indexOf name)
            default).properties.imagePassword
          = some (some (generateImagePassword (rng k))) := by
  refine ⟨?_, ?_, attachMutate_imagePassword ctx jf server_name name rng k hmem hnull⟩
  · intro files2 sn url rng2 k2
    simp only [create_single]
    cases h : files2.lookup (sn ++ ".json") with
    | none => rfl
    | some jf2 => rfl
  · rw [attach_single_files ctx files jf href server_name name CompType.volumes rng k
      Ed Ee dchref hdc hex hjf hmem]
    exact lookup_setJson files (server_name ++ ".json") jf _ hjf

/-- C4 witness: the concrete `web1`/`v1` scenario. -/
theorem engine_mutation_locality_witness :
    (create_single ctxC4 filesC4 "web1" "U" rng0 0).2.1 = filesC4
      ∧ ((attach_single ctxC4 filesC4 "S" "web1" "v1" CompType.volumes rng0 0).2.1.lookup
            "web1.json")
          = some (attachMutate ctxC4 jfC4 "web1" "v1" CompType.volumes rng0 0).1
      ∧ ((attachMutate ctxC4 jfC4 "web1" "v1" CompType.volumes rng0 0).1.volumes.getD
            ((attachComponentNames jfC4 CompType.volumes).indexOf "v1")
            default).properties.imagePassword
          = some (some (generateImagePassword (rng0 0))) := by
  have h := engine_mutation_locality ctxC4 filesC4 jfC4 "S" "web1" "v1" rng0 0
    [Event.getReq "D"] [Event.getReq "S"] "D"
    (by decide) (by decide) (by decide) (by decide) (by decide)
  exact ⟨h.1 filesC4 "web1" "U" rng0 0, h.2.1, h.2.2⟩

/-! ### Password generation in the creation payload (C6) -/

theorem passwordAlphabet_length : passwordAlphabet.length = 62 := rfl

theorem generateImagePassword_length (choices : Fin 32 → Fin 62) :
    (generateImagePassword choices).length = 32 := by
  simp [generateImagePassword, String.length]

theorem generateImagePassword_alphanumeric (choices : Fin 32 → Fin 62) :
    ∀ c ∈ (generateImagePassword choices).data, c ∈ passwordAlphabet := by
  intro c hc
  simp only [generateImagePassword] at hc
  rcases List.mem_map.mp hc with ⟨i, _, hi⟩
  have hlt : ((choices i) : Nat) < passwordAlphabet.length := by
    rw [passwordAlphabet_length]
    exact (choices i).isLt
  rw [← hi, List.getD_eq_getElem _ _ hlt]
  exact List.getElem_mem hlt

theorem nullsBefore_cons_null (v : Component) (rest : List Component) (j : Nat)
    (h : v.properties.imagePassword = some none) :
    nullsBefore (v :: rest) (j + 1) = nullsBefore rest j + 1 := by
  simp [nullsBefore, List.take_succ_cons, List.filter_cons, h]

theorem nullsBefore_cons_notnull (v : Component) (rest : List Component) (j : Nat)
    (h : v.properties.imagePassword ≠ some none) :
    nullsBefore (v :: rest) (j + 1) = nullsBefore rest j := by
  simp [nullsBefore, List.take_succ_cons, List.filter_cons, h]

theorem substPasswords_getElem (rng : Nat → Fin 32 → Fin 62) :
    ∀ (vols : List Component) (k i : Nat),
      (∀ j, j < i → ∀ c, vols[j]? = some c → c.properties.imagePassword ≠ none) →
      ((substPasswords rng k vols).1[i]?).map (fun c => c.properties.imagePassword)
        = (vols[i]?).map (fun c =>
            match c.properties.imagePassword with
            | some none => some (some (generateImagePassword (rng (k + nullsBefore vols i))))
            | x => x) := by
  intro vols
  induction vols with
  | nil => intro k i _; simp [substPasswords]
  | cons v rest ih =>
    intro k i hkeys
    cases hpw : v.properties.imagePassword with
    | none =>
      cases i with
      | zero => simp [substPasswords, hpw, nullsBefore]
      | succ j =>
        exact absurd hpw (hkeys 0 (Nat.succ_pos j) v (by simp))
    | some opw =>
      cases opw with
      | none =>
        rcases hs : substPasswords rng (k + 1) rest with ⟨rest2, k2⟩
        cases i with
        | zero => simp [substPasswords, hpw, hs, nullsBefore]
        | succ j =>
          have hk2 : ∀ j2, j2 < j → ∀ c, rest[j2]? = some c →
              c.properties.imagePassword ≠ none := by
            intro j2 hj2 c hc
            exact hkeys (j2 + 1) (by omega) c (by simpa using hc)
          have ihj := ih (k + 1) j hk2
          rw [hs] at ihj
          simp only [substPasswords, hpw, hs, List.getElem?_cons_succ]
          rw [nullsBefore_cons_null v rest j hpw]
          have harith : k + (nullsBefore rest j + 1) = k + 1 + nullsBefore rest j := by omega
          rw [harith]
          exact ihj
      | some p =>
        rcases hs : substPasswords rng k rest with ⟨rest2, k2⟩
        cases i with
        | zero => simp [substPasswords, hpw, hs, nullsBefore]
        | succ j =>
          have hk2 : ∀ j2, j2 < j → ∀ c, rest[j2]? = some c →
              c.properties.imagePassword ≠ none := by
            intro j2 hj2 c hc
            exact hkeys (j2 + 1) (by omega) c (by simpa using hc)
          have ihj := ih k j hk2
          rw [hs] at ihj
          simp only [substPasswords, hpw, hs, List.getElem?_cons_succ]
          rw [nullsBefore_cons_notnull v rest j (by simp [hpw])]
          exact ihj

theorem attachUserData_imagePassword (env : Env) (vols : List Component) (i : Nat) :
    ((attachUserData env vols)[i]?).map (fun c => c.properties.imagePassword)
      = (vols[i]?).map (fun c => c.properties.imagePassword) := by
  simp only [attachUserData, List.getElem?_map]
  cases h : vols[i]? with
  | none => rfl
  | some c =>
    by_cases hc : ((c.properties.name ++ ".yaml") ∈ env.cloudConfigs
        ∧ pyIn "-boot" c.properties.name = true)
    · simp [hc]
    · simp [hc]

/-- C6 counterexample: embedded volumes `[v0 (imagePassword key absent), v1
(imagePassword null)]`.  The claim says v1 must receive a generated password
regardless of v0 omitting the key; instead the `KeyError` raised at v0 is
caught OUTSIDE the loop, the substitution aborts, and v1 keeps its null
password in the creation payload. -/
theorem null_password_after_absent_key_counterexample :
    (jfC6.server.entityVolumes.getD 0 default).properties.imagePassword = none
      ∧ (jfC6.server.entityVolumes.getD 1 default).properties.imagePassword = some none
      ∧ ((create_payload (mkEnv []) rng0 0 jfC6).1.entityVolumes.getD 1
            default).properties.imagePassword = some none := by
  decide

/-- C6 (amended): the generated password is always a 32-character string over
the alphanumeric alphabet, and for every embedded volume at an index all of
whose predecessors carry the imagePassword key, the creation payload holds:
a null imagePassword is replaced by the freshly generated password (the
next unused draw of the random stream), and a non-null or absent one is left
unchanged.  (Volumes after the first key-omitting volume are NOT substituted:
see the counterexample.) -/
theorem create_payload_null_passwords (env : Env) (rng : Nat → Fin 32 → Fin 62) (k : Nat)
    (jf : JsonFile) (i : Nat)
    (hkeys : ∀ j, j < i → ∀ c, jf.server.entityVolumes[j]? = some c →
      c.properties.imagePassword ≠ none) :
    (∀ choices : Fin 32 → Fin 62,
        (generateImagePassword choices).length = 32
          ∧ ∀ ch ∈ (generateImagePassword choices).data, ch ∈ passwordAlphabet)
      ∧ ((create_payload env rng k jf).1.entityVolumes[i]?).map
            (fun c => c.properties.imagePassword)
          = (jf.server.entityVolumes[i]?).map (fun c =>
              match c.properties.imagePassword with
              | some none => some (some (generateImagePassword
                  (rng (k + nullsBefore jf.server.entityVolumes i))))
              | x => x) := by
  refine ⟨fun choices => ⟨generateImagePassword_length choices,
    generateImagePassword_alphanumeric choices⟩, ?_⟩
  simp only [create_payload]
  rcases hs : substPasswords rng k jf.server.entityVolumes with ⟨vols1, k2⟩
  have h2 := substPasswords_getElem rng jf.server.entityVolumes k i hkeys
  rw [hs] at h2
  show ((attachUserData env vols1)[i]?).map (fun c => c.properties.imagePassword)
      = (jf.server.entityVolumes[i]?).map (fun c =>
          match c.properties.imagePassword with
          | some none => some (some (generateImagePassword
              (rng (k + nullsBefore jf.server.entityVolumes i))))
          | x => x)
  rw [attachUserData_imagePassword env vols1 i]
  exact h2

/-- C6 witness: with both embedded volumes carrying the key (null then
explicit), the second volume's explicit password is left unchanged. -/
theorem create_payload_null_passwords_witness :
    ((generateImagePassword (rng0 0)).length = 32
        ∧ ∀ ch ∈ (generateImagePassword (rng0 0)).data, ch ∈ passwordAlphabet)
      ∧ ((create_payload (mkEnv []) rng0 0 jfC6w).1.entityVolumes[1]?).map
            (fun c => c.properties.imagePassword)
          = (jfC6w.server.entityVolumes[1]?).map (fun c =>
              match c.properties.imagePassword with
              | some none => some (some (generateImagePassword
                  (rng0 (0 + nullsBefore jfC6w.server.entityVolumes 1))))
              | x => x) :=
  have h := create_payload_null_passwords (mkEnv []) rng0 0 jfC6w 1
    (by
      intro j hj c hc
      have hj0 : j = 0 := by omega
      subst hj0
      simp [jfC6w] at hc
      rw [← hc]
      simp)
  ⟨h.1 (rng0 0), h.2⟩

/-! ### Boot-volume naming convention (C8) -/

theorem substPasswords_name_userData (rng : Nat → Fin 32 → Fin 62) :
    ∀ (vols : List Component) (k i : Nat),
      ((substPasswords rng k vols).1[i]?).map
          (fun c => (c.properties.name, c.properties.userData))
        = (vols[i]?).map (fun c => (c.properties.name, c.properties.userData)) := by
  intro vols
  induction vols with
  | nil => intro k i; simp [substPasswords]
  | cons v rest ih =>
    intro k i
    cases hpw : v.properties.imagePassword with
    | none => simp [substPasswords, hpw]
    | some opw =>
      cases opw with
      | none =>
        rcases hs : substPasswords rng (k + 1) rest with ⟨rest2, k2⟩
        cases i with
        | zero => simp [substPasswords, hpw, hs]
        | succ j =>
          have ihj := ih (k + 1) j
          rw [hs] at ihj
          simp only [substPasswords, hpw, hs, List.getElem?_cons_succ]
          exact ihj
      | some p =>
        rcases hs : substPasswords rng k rest with ⟨rest2, k2⟩
        cases i with
        | zero => simp [substPasswords, hpw, hs]
        | succ j =>
          have ihj := ih k j
          rw [hs] at ihj
          simp only [substPasswords, hpw, hs, List.getElem?_cons_succ]
          exact ihj

theorem create_payload_userData (env : Env) (rng : Nat → Fin 32 → Fin 62) (k : Nat)
    (jf : JsonFile) (i : Nat) :
    ((create_payload env rng k jf).1.entityVolumes[i]?).map (fun c => c.properties.userData)
      = (jf.server.entityVolumes[i]?).map (fun c =>
          if (c.properties.name ++ ".yaml") ∈ env.cloudConfigs
              ∧ pyIn "-boot" c.properties.name = true
          then some (env.userDataFor (c.properties.name ++ ".yaml"))
          else c.properties.userData) := by
  simp only [create_payload]
  rcases hs : substPasswords rng k jf.server.entityVolumes with ⟨vols1, k2⟩
  have hnu := substPasswords_name_userData rng jf.server.entityVolumes k i
  rw [hs] at hnu
  show ((attachUserData env vols1)[i]?).map (fun c => c.properties.userData)
      = (jf.server.entityVolumes[i]?).map (fun c =>
          if (c.properties.name ++ ".yaml") ∈ env.cloudConfigs
              ∧ pyIn "-boot" c.properties.name = true
          then some (env.userDataFor (c.properties.name ++ ".yaml"))
          else c.properties.userData)
  simp only [attachUserData, List.getElem?_map]
  cases h1 : vols1[i]? with
  | none =>
    cases h2 : jf.server.entityVolumes[i]? with
    | none => simp
    | some c =>
      rw [h1, h2] at hnu
      simp at hnu
  | some c1 =>
    cases h2 : jf.server.entityVolumes[i]? with
    | none =>
      rw [h1, h2] at hnu
      simp at hnu
    | some c =>
      rw [h1, h2] at hnu
      simp at hnu
      obtain ⟨hname, hud⟩ := hnu
      by_cases hc : ((c.properties.name ++ ".yaml") ∈ env.cloudConfigs
          ∧ pyIn "-boot" c.properties.name = true)
      · simp [hname, hud, hc]
      · simp [hname, hud, hc]

theorem attach_single_patch_iff (ctx : Ctx) (files : JsonFiles) (jf : JsonFile)
    (href server_name name : String) (ty : CompType) (rng : Nat → Fin 32 → Fin 62) (k : Nat)
    (Ed Ee : List Event) (dchref : String)
    (hdc : name_to_href_scan ctx.env.datacenterName ctx.remote.datacenters = (Ed, some dchref))
    (hex : server_exists_scan server_name ctx.remote.servers = (Ee, true))
    (hjf : files.lookup (server_name ++ ".json") = some jf)
    (hmem : name ∈ attachComponentNames jf ty)
    (hav : ctx.remote.state href = some "AVAILABLE") :
    hasPatch (attach_single ctx files href server_name name ty rng k).1
      = (decide (ty = CompType.volumes)
          && pyEndsWith (ctx.remote.attachResp (href ++ "/" ++ ty.str)
              (attachProps ctx jf server_name name ty rng k)).name "-boot") := by
  have hEd : hasPatch Ed = false := by
    have := hasPatch_of_passive _
      (passive_name_to_href_scan ctx.env.datacenterName ctx.remote.datacenters)
    rw [hdc] at this
    exact this
  have hEe : hasPatch Ee = false := by
    have := hasPatch_of_passive _ (passive_server_exists_scan server_name ctx.remote.servers)
    rw [hex] at this
    exact this
  have hbar := all_available_of_available ctx.remote.state href hav
  simp only [attach_single, name_to_href, server_exists, hdc, hex, hjf, hmem, if_true, hbar]
  rcases hmu : attachMutate ctx jf server_name name ty rng k with ⟨jf2, k1⟩
  by_cases hb : ty = CompType.volumes ∧ pyEndsWith
      (ctx.remote.attachResp (href ++ "/" ++ ty.str)
        (attachProps ctx jf server_name name ty rng k)).name "-boot" = true
  · rw [if_pos hb]
    have hrhs : (decide (ty = CompType.volumes)
        && pyEndsWith (ctx.remote.attachResp (href ++ "/" ++ ty.str)
            (attachProps ctx jf server_name name ty rng k)).name "-boot") = true := by
      obtain ⟨hA, hB⟩ := hb
      subst hA
      simp [hB]
    rw [hrhs]
    simp [hasPatch, hasPatch_append, hEd, hEe]
  · rw [if_neg hb]
    have hrhs : (decide (ty = CompType.volumes)
        && pyEndsWith (ctx.remote.attachResp (href ++ "/" ++ ty.str)
            (attachProps ctx jf server_name name ty rng k)).name "-boot") = false := by
      by_cases hA : ty = CompType.volumes
      · subst hA
        have hB : ¬ pyEndsWith (ctx.remote.attachResp (href ++ "/" ++ CompType.volumes.str)
            (attachProps ctx jf server_name name CompType.volumes rng k)).name "-boot" = true :=
          fun hB2 => hb ⟨rfl, hB2⟩
        simp [hB]
      · simp [hA]
    rw [hrhs]
    simp [hasPatch, hasPatch_append, hEd, hEe]

/-- C8 counterexample: volume `data-boot-2` does NOT end with `-boot` but
contains it as a substring; with its template present, the creation payload
still receives a userData payload — the code tests `"-boot" in name`
(substring), not `name.endswith("-boot")`. -/
theorem create_userData_substring_counterexample :
    pyEndsWith "data-boot-2" "-boot" = false
      ∧ pyIn "-boot" "data-boot-2" = true
      ∧ ((create_payload (mkEnv ["data-boot-2.yaml"]) rng0 0 jfC8).1.entityVolumes.getD 0
            default).properties.userData
        = some ((mkEnv []).userDataFor "data-boot-2.yaml") := by
  decide

/-- C8 (amended): `create_single` attaches a boot-script userData payload to
an embedded volume if and only if the volume's name CONTAINS `-boot` as a
substring (Python `in`) and the template file `<name>.yaml` exists; and a
successful `attach_single` issues the boot-device follow-up PATCH if and only
if the attach is of a volume and the POST response's name ENDS with `-boot`. -/
theorem boot_suffix_convention (ctx : Ctx) (files : JsonFiles) (jf : JsonFile)
    (href server_name name : String) (ty : CompType) (rng : Nat → Fin 32 → Fin 62) (k : Nat)
    (Ed Ee : List Event) (dchref : String)
    (hdc : name_to_href_scan ctx.env.datacenterName ctx.remote.datacenters = (Ed, some dchref))
    (hex : server_exists_scan server_name ctx.remote.servers = (Ee, true))
    (hjf : files.lookup (server_name ++ ".json") = some jf)
    (hmem : name ∈ attachComponentNames jf ty)
    (hav : ctx.remote.state href = some "AVAILABLE") :
    (∀ (env : Env) (rng2 : Nat → Fin 32 → Fin 62) (k2 : Nat) (jf2 : JsonFile) (i : Nat),
        ((create_payload env rng2 k2 jf2).1.entityVolumes[i]?).map
            (fun c => c.properties.userData)
          = (jf2.server.entityVolumes[i]?).map (fun c =>
              if (c.properties.name ++ ".yaml") ∈ env.cloudConfigs
                  ∧ pyIn "-boot" c.properties.name = true
              then some (env.userDataFor (c.properties.name ++ ".yaml"))
              else c.properties.userData))
      ∧ hasPatch (attach_single ctx files href server_name name ty rng k).1
          = (decide (ty = CompType.volumes)
              && pyEndsWith (ctx.remote.attachResp (href ++ "/" ++ ty.str)
                  (attachProps ctx jf server_name name ty rng k)).name "-boot") :=
  ⟨fun env rng2 k2 jf2 i => create_payload_userData env rng2 k2 jf2 i,
    attach_single_patch_iff ctx files jf href server_name name ty rng k Ed Ee dchref
      hdc hex hjf hmem hav⟩

/-- C8 witness: the concrete `web1`/`v1` volume attach (response name `v1`
does not end with `-boot`, so no PATCH), plus the payload-userData equation
at the `data-boot-2` configuration. -/
theorem boot_suffix_convention_witness :
    (((create_payload (mkEnv ["data-boot-2.yaml"]) rng0 0 jfC8).1.entityVolumes[0]?).map
          (fun c => c.properties.userData)
        = (jfC8.server.entityVolumes[0]?).map (fun c =>
            if (c.properties.name ++ ".yaml") ∈ (mkEnv ["data-boot-2.yaml"]).cloudConfigs
                ∧ pyIn "-boot" c.properties.name = true
            then some ((mkEnv ["data-boot-2.yaml"]).userDataFor (c.properties.name ++ ".yaml"))
            else c.properties.userData))
      ∧ hasPatch (attach_single ctxC4 filesC4 "S" "web1" "v1" CompType.volumes rng0 0).1
          = (decide (CompType.volumes = CompType.volumes)
              && pyEndsWith (ctxC4.remote.attachResp ("S" ++ "/" ++ CompType.volumes.str)
                  (attachProps ctxC4 jfC4 "web1" "v1" CompType.volumes rng0 0)).name "-boot") :=
  have h := boot_suffix_convention ctxC4 filesC4 jfC4 "S" "web1" "v1" CompType.volumes rng0 0
    [Event.getReq "D"] [Event.getReq "S"] "D"
    (by decide) (by decide) (by decide) (by decide) (by decide)
  ⟨h.1 (mkEnv ["data-boot-2.yaml"]) rng0 0 jfC8 0, h.2⟩
